/-
Verification of the SpatialLM3D backend core: the notation-to-structure
conversion pipeline (backend-api/utils/precompute_results.py) and the keyed
scene store / lookup layer (backend-api/main.py).

Embedding conventions:
- Python strings are Lean String / List Char; Python floats are ℚ, with each
  decimal literal of the source mapped to the exact rational it denotes
  (both the source and the spec only ever compare equal decimal literals, so
  this is faithful for every property considered here).
- The regular expressions of precompute_results.py are embedded as explicit
  character-list matchers.  Each pattern there is a literal constructor name
  followed by groups `[\d.-]+` or `[^,]+` separated by `,\s*` and closed by
  `\)`; for such patterns greedy matching with backtracking coincides with
  backtracking-free maximal munch, because every character class involved is
  disjoint from the literal that follows it (`,` and `)` are not in `[\d.-]`,
  a whitespace character is not in `[\d.-]`, and `[^,]` stops exactly at
  `,`).  re.search is embedded as trying the match at every suffix, leftmost
  first, exactly like the Python engine.
- Python exceptions become Except values; an uncaught ValueError raised by
  float() is the floatConvError variant, the explicitly raised
  ValueError("Could not parse ... line: ...") is couldNotParse.  The error
  taxonomy of the spec (MalformedLine, UnknownRecordKind, InvalidNumber,
  DuplicateId) is included as extra variants of the same type so that claims
  about it can be stated; the translated code never produces those variants.
- File-system state (the mock_data directory of main.py) is a list of
  (scene id, stored JSON) pairs, where an entry (i, j) stands for the file
  mock_data/{i}_results.json with parsed JSON content j.
-/
import Mathlib

namespace SpatialLM

/-! ## JSON values -/

/-- A JSON value, as produced by json.dump / consumed by json.load. -/
inductive Json where
  | str (s : String)
  | num (q : ℚ)
  | arr (elems : List Json)
  | obj (fields : List (String × Json))

/-- The field names of a JSON object, in order. -/
def Json.objKeys : Json → List String
  | .obj fs => fs.map (fun f => f.1)
  | _ => []

/-- Field lookup in a list of JSON object fields (dict access). -/
def jGet (fs : List (String × Json)) (k : String) : Option Json :=
  (fs.find? (fun f => f.1 = k)).map (fun f => f.2)

/-- dict.get with a default value. -/
def jGetD (fs : List (String × Json)) (k : String) (d : Json) : Json :=
  match jGet fs k with
  | some j => j
  | none => d

/-- Field lookup on a JSON value (none when not an object or key absent). -/
def Json.getField (j : Json) (k : String) : Option Json :=
  match j with
  | .obj fs => jGet fs k
  | _ => none

/-- Whether a JSON value is an array. -/
def Json.isArr : Json → Bool
  | .arr _ => true
  | _ => false

/-- The first element of the array stored under a field, when there is
one. -/
def firstElem (j : Json) (k : String) : Option Json :=
  match j.getField k with
  | some (.arr (e :: _)) => some e
  | _ => none

/-! ## Python character-level semantics -/

/-- The characters matched by the regex class `[\d.-]`. -/
def classChar (c : Char) : Bool := c.isDigit || c = '.' || c = '-'

/-- Python whitespace: the characters stripped by str.strip() and matched
by the regex class `\s`. -/
def pyWs (c : Char) : Bool :=
  c = ' ' || c = '\t' || c = '\n' || c = '\r' || c = '\x0b' || c = '\x0c'

/-- str.strip() on a character list: drop whitespace from both ends. -/
def pstripL (s : List Char) : List Char :=
  ((s.dropWhile pyWs).reverse.dropWhile pyWs).reverse

/-- str.strip() on a String. -/
def pstrip (s : String) : String := ⟨pstripL s.toList⟩

/-- Whether pat occurs as a contiguous substring of s. -/
def hasSub (pat : List Char) : List Char → Bool
  | [] => pat.isPrefixOf []
  | c :: t => pat.isPrefixOf (c :: t) || hasSub pat t

/-- Fuel-driven worker for pyReplaceEmpty (fuel bounds the input length,
keeping the recursion structural so that the kernel can evaluate it). -/
def replaceEmptyGo (pat : List Char) : Nat → List Char → List Char
  | _, [] => []
  | 0, s => s
  | fuel + 1, c :: t =>
    if pat ≠ [] ∧ pat.isPrefixOf (c :: t) then
      replaceEmptyGo pat fuel ((c :: t).drop pat.length)
    else
      c :: replaceEmptyGo pat fuel t

/-- Python s.replace(pat, ""): delete every (non-overlapping, leftmost-first)
occurrence of pat from s. -/
def pyReplaceEmpty (pat s : List Char) : List Char :=
  replaceEmptyGo pat s.length s

/-- A pattern has no border when no proper nonempty prefix of it is also a
suffix; such patterns cannot overlap themselves across a boundary. -/
def NoBorder (pat : List Char) : Bool :=
  (List.range pat.length).all
    (fun k => k = 0 || decide (pat.take k ≠ pat.drop (pat.length - k)))

/-! ## precompute_results.py : data model -/

namespace Pre

/-- Dataclass Wall of precompute_results.py (note the flattened coordinate
fields; lines 39-48). -/
structure Wall where
  id : String
  start_x : ℚ
  start_y : ℚ
  start_z : ℚ
  end_x : ℚ
  end_y : ℚ
  end_z : ℚ
  height : ℚ

/-- Dataclass Door of precompute_results.py (lines 51-59). -/
structure Door where
  id : String
  wall_id : String
  position_x : ℚ
  position_y : ℚ
  position_z : ℚ
  width : ℚ
  height : ℚ

/-- Dataclass Window of precompute_results.py (lines 62-70). -/
structure Window where
  id : String
  wall_id : String
  position_x : ℚ
  position_y : ℚ
  position_z : ℚ
  width : ℚ
  height : ℚ

/-- Dataclass BoundingBox of precompute_results.py (lines 73-84). -/
structure BoundingBox where
  id : String
  object_class : String
  position_x : ℚ
  position_y : ℚ
  position_z : ℚ
  rotation_z : ℚ
  scale_x : ℚ
  scale_y : ℚ
  scale_z : ℚ
  confidence : ℚ

/-- Conversion errors.  The first two variants are the failures the source
can actually raise (the explicit ValueError of the parse functions, and an
uncaught ValueError escaping from float()).  The remaining variants are the
error taxonomy of the spec, included here so claims about it can be stated;
no function translated from the source ever produces them. -/
inductive ConvErr where
  | couldNotParse (kind : String) (line : String)
  | floatConvError (token : String)
  | malformedLine (lineNo : Nat) (raw : String)
  | unknownRecordKind (ident : String) (lineNo : Nat)
  | invalidNumber (field : String) (token : String)
  | duplicateId (kind : String) (id : String)
deriving DecidableEq

/-- Whether an error is one of the two failures the source code can raise. -/
def ConvErr.fromCode : ConvErr → Bool
  | .couldNotParse _ _ => true
  | .floatConvError _ => true
  | _ => false

/-- Whether an error is the InvalidNumber variant of the spec taxonomy. -/
def ConvErr.isInvalidNumber : ConvErr → Bool
  | .invalidNumber _ _ => true
  | _ => false

/-! ## precompute_results.py : regex matching -/

/-- Match n consecutive groups `([\d.-]+)` separated by `,\s*`, returning the
groups and the unconsumed rest.  Maximal munch; see the header comment for
why this coincides with the Python regex engine on these patterns. -/
def matchNumGroups : Nat → List Char → Option (List (List Char) × List Char)
  | 0, cs => some ([], cs)
  | 1, cs =>
    let g := cs.takeWhile classChar
    if g = [] then none else some ([g], cs.dropWhile classChar)
  | n + 2, cs =>
    let g := cs.takeWhile classChar
    if g = [] then none else
      match cs.dropWhile classChar with
      | ',' :: r2 =>
        match matchNumGroups (n + 1) (r2.dropWhile pyWs) with
        | some (gs, r) => some (g :: gs, r)
        | none => none
      | _ => none

/-- Match n numeric groups followed by the closing `\)`. -/
def matchTail (n : Nat) (cs : List Char) : Option (List (List Char)) :=
  match matchNumGroups n cs with
  | some (gs, ')' :: _) => some gs
  | _ => none

/-- Match a free-text group `([^,]+)` then `,\s*`, then n numeric groups and
the closing `\)` (the shape of the Bbox, Door and Window patterns). -/
def matchFreeTail (n : Nat) (cs : List Char) : Option (List Char × List (List Char)) :=
  let g := cs.takeWhile (fun c => c ≠ ',')
  if g = [] then none else
    match cs.dropWhile (fun c => c ≠ ',') with
    | ',' :: r2 =>
      match matchTail n (r2.dropWhile pyWs) with
      | some gs => some (g, gs)
      | none => none
    | _ => none

/-- re.search: try the match at every suffix, leftmost first. -/
def reSearch (m : List Char → Option α) : List Char → Option α
  | [] => m []
  | c :: t =>
    match m (c :: t) with
    | some r => some r
    | none => reSearch m t

/-- The literal constructor prefix of the Wall pattern. -/
def wallPat : List Char := ['W', 'a', 'l', 'l', '(']

/-- The literal constructor prefix of the Bbox pattern. -/
def bboxPat : List Char := ['B', 'b', 'o', 'x', '(']

/-- The literal constructor prefix of the Door pattern. -/
def doorPat : List Char := ['D', 'o', 'o', 'r', '(']

/-- The literal constructor prefix of the Window pattern. -/
def windowPat : List Char := ['W', 'i', 'n', 'd', 'o', 'w', '(']

/-- re.search for a pattern `Ctor\(` followed by n numeric groups and `\)`. -/
def ctorSearchNum (pat : List Char) (n : Nat) (cs : List Char) : Option (List (List Char)) :=
  reSearch (fun s => if pat.isPrefixOf s then matchTail n (s.drop pat.length) else none) cs

/-- re.search for a pattern `Ctor\(` followed by a `[^,]+` group, `,\s*`,
n numeric groups and `\)`. -/
def ctorSearchFree (pat : List Char) (n : Nat) (cs : List Char) :
    Option (List Char × List (List Char)) :=
  reSearch (fun s => if pat.isPrefixOf s then matchFreeTail n (s.drop pat.length) else none) cs

/-! ## precompute_results.py : float conversion -/

/-- Value of a digit string (most significant first). -/
def digitsVal (ds : List Char) : Nat :=
  ds.foldl (fun a c => a * 10 + (c.toNat - 48)) 0

/-- Whether Python float() accepts this token.  Only ever applied to strings
drawn from the class `[\d.-]`, where float() accepts exactly: an optional
leading minus sign, then digits with at most one decimal point and at least
one digit. -/
def pyFloatValid (cs : List Char) : Bool :=
  let body := match cs with | '-' :: t => t | _ => cs
  body.all (fun c => c.isDigit || c = '.') &&
  ((body.filter (fun c => c = '.')).length ≤ 1) &&
  body.any Char.isDigit

/-- The integer mantissa of a valid float token (digits with the decimal
point removed, negated when the token has a leading minus sign). -/
def pyMantissa (cs : List Char) : ℤ :=
  let sgn : ℤ := match cs with | '-' :: _ => -1 | _ => 1
  let body := match cs with | '-' :: t => t | _ => cs
  let ip := body.takeWhile (fun c => c ≠ '.')
  let fp := (body.dropWhile (fun c => c ≠ '.')).drop 1
  sgn * ((digitsVal ip * 10 ^ fp.length + digitsVal fp : Nat) : ℤ)

/-- The number of fractional digits of a float token. -/
def pyFracLen (cs : List Char) : Nat :=
  let body := match cs with | '-' :: t => t | _ => cs
  ((body.dropWhile (fun c => c ≠ '.')).drop 1).length

/-- The rational value a float token denotes. -/
def pyFloatVal (cs : List Char) : ℚ :=
  (pyMantissa cs : ℚ) / (10 ^ pyFracLen cs : ℚ)

/-- Python float() on a regex group: the value, or the uncaught ValueError. -/
def pyFloat (cs : List Char) : Except ConvErr ℚ :=
  if pyFloatValid cs then .ok (pyFloatVal cs) else .error (.floatConvError ⟨cs⟩)

/-- float() mapped over the matched groups, left to right, stopping at the
first failure (the list comprehension of the parse functions). -/
def pyFloats : List (List Char) → Except ConvErr (List ℚ)
  | [] => .ok []
  | t :: ts =>
    match pyFloat t with
    | .error e => .error e
    | .ok v =>
      match pyFloats ts with
      | .error e => .error e
      | .ok vs => .ok (v :: vs)

/-! ## precompute_results.py : the four record parse functions -/

/-- parse_wall_line (lines 117-140): regex-search the Wall pattern in the
line, convert the seven groups with float(), build the record. -/
def parse_wall_line (line : String) (wall_id : String) : Except ConvErr Wall :=
  match ctorSearchNum wallPat 7 line.toList with
  | none => .error (.couldNotParse "wall" line)
  | some gs =>
    match pyFloats gs with
    | .error e => .error e
    | .ok [v1, v2, v3, v4, v5, v6, v7] => .ok ⟨wall_id, v1, v2, v3, v4, v5, v6, v7⟩
    | .ok _ => .error (.couldNotParse "wall" line)

/-- parse_bbox_line (lines 87-114).  The label group is stripped; confidence
is always the constant 0.95 (line 113), written here as 19/20. -/
def parse_bbox_line (line : String) (bbox_id : String) : Except ConvErr BoundingBox :=
  match ctorSearchFree bboxPat 7 line.toList with
  | none => .error (.couldNotParse "bbox" line)
  | some (label, gs) =>
    match pyFloats gs with
    | .error e => .error e
    | .ok [v1, v2, v3, v4, v5, v6, v7] =>
      .ok ⟨bbox_id, ⟨pstripL label⟩, v1, v2, v3, v4, v5, v6, v7, 19 / 20⟩
    | .ok _ => .error (.couldNotParse "bbox" line)

/-- parse_door_line (lines 143-166).  The wall reference group is stripped. -/
def parse_door_line (line : String) (door_id : String) : Except ConvErr Door :=
  match ctorSearchFree doorPat 5 line.toList with
  | none => .error (.couldNotParse "door" line)
  | some (wref, gs) =>
    match pyFloats gs with
    | .error e => .error e
    | .ok [v1, v2, v3, v4, v5] => .ok ⟨door_id, ⟨pstripL wref⟩, v1, v2, v3, v4, v5⟩
    | .ok _ => .error (.couldNotParse "door" line)

/-- parse_window_line (lines 169-192). -/
def parse_window_line (line : String) (window_id : String) : Except ConvErr Window :=
  match ctorSearchFree windowPat 5 line.toList with
  | none => .error (.couldNotParse "window" line)
  | some (wref, gs) =>
    match pyFloats gs with
    | .error e => .error e
    | .ok [v1, v2, v3, v4, v5] => .ok ⟨window_id, ⟨pstripL wref⟩, v1, v2, v3, v4, v5⟩
    | .ok _ => .error (.couldNotParse "window" line)

/-! ## precompute_results.py : convert_to_json -/

/-- The four record lists the conversion accumulates (the walls, doors,
windows, objects lists of convert_to_json). -/
structure SceneData where
  walls : List Wall
  doors : List Door
  windows : List Window
  objects : List BoundingBox

/-- The identifier prefixes dispatched on in convert_to_json. -/
def bboxPre : List Char := ['b', 'b', 'o', 'x', '_']

/-- Prefix of wall identifiers. -/
def wallPre : List Char := ['w', 'a', 'l', 'l', '_']

/-- Prefix of door identifiers. -/
def doorPre : List Char := ['d', 'o', 'o', 'r', '_']

/-- Prefix of window identifiers. -/
def windowPre : List Char := ['w', 'i', 'n', 'd', 'o', 'w', '_']

/-- The left-hand identifier of an assignment line: everything before the
first '=', stripped (line.split('=', 1)[0].strip()). -/
def varOf (s : List Char) : List Char :=
  pstripL (s.takeWhile (fun c => c ≠ '='))

/-- What one pass of the line loop contributes. -/
inductive LineRec where
  | skip
  | bad (e : ConvErr)
  | wallR (w : Wall)
  | doorR (d : Door)
  | windowR (w : Window)
  | objR (b : BoundingBox)

/-- The body of the line loop of convert_to_json (lines 211-236): strip the
line; skip it when blank, when it has no '=', or when the identifier prefix
is not recognized; otherwise parse a record of the kind selected by the
identifier prefix, propagating the parse failure. -/
def lineStep (l : List Char) : LineRec :=
  let s := pstripL l
  if s = [] then .skip
  else if s.contains '=' then
    let v := varOf s
    if bboxPre.isPrefixOf v then
      match parse_bbox_line ⟨s⟩ ⟨v⟩ with
      | .error e => .bad e
      | .ok b => .objR b
    else if wallPre.isPrefixOf v then
      match parse_wall_line ⟨s⟩ ⟨v⟩ with
      | .error e => .bad e
      | .ok w => .wallR w
    else if doorPre.isPrefixOf v then
      match parse_door_line ⟨s⟩ ⟨v⟩ with
      | .error e => .bad e
      | .ok d => .doorR d
    else if windowPre.isPrefixOf v then
      match parse_window_line ⟨s⟩ ⟨v⟩ with
      | .error e => .bad e
      | .ok w => .windowR w
    else .skip
  else .skip

/-- The line loop of convert_to_json (lines 210-236): run lineStep on each
line in order, appending each parsed record to the list of its kind and
aborting on the first parse failure. -/
def go : List (List Char) → SceneData → Except ConvErr SceneData
  | [], acc => .ok acc
  | l :: rest, acc =>
    match lineStep l with
    | .skip => go rest acc
    | .bad e => .error e
    | .wallR w => go rest { acc with walls := acc.walls ++ [w] }
    | .doorR d => go rest { acc with doors := acc.doors ++ [d] }
    | .windowR w => go rest { acc with windows := acc.windows ++ [w] }
    | .objR b => go rest { acc with objects := acc.objects ++ [b] }

/-- The record-level result of convert_to_json on the lines of the input
file (the asdict serialization is applied by sceneDict below; in the source
the two are interleaved, which yields the same JSON). -/
def convertScene (lines : List String) : Except ConvErr SceneData :=
  go (lines.map String.toList) ⟨[], [], [], []⟩

/-- dataclasses.asdict on Wall: field names in declaration order. -/
def wallJson (w : Wall) : Json :=
  .obj [("id", .str w.id), ("start_x", .num w.start_x), ("start_y", .num w.start_y),
        ("start_z", .num w.start_z), ("end_x", .num w.end_x), ("end_y", .num w.end_y),
        ("end_z", .num w.end_z), ("height", .num w.height)]

/-- dataclasses.asdict on Door. -/
def doorJson (d : Door) : Json :=
  .obj [("id", .str d.id), ("wall_id", .str d.wall_id), ("position_x", .num d.position_x),
        ("position_y", .num d.position_y), ("position_z", .num d.position_z),
        ("width", .num d.width), ("height", .num d.height)]

/-- dataclasses.asdict on Window. -/
def windowJson (w : Window) : Json :=
  .obj [("id", .str w.id), ("wall_id", .str w.wall_id), ("position_x", .num w.position_x),
        ("position_y", .num w.position_y), ("position_z", .num w.position_z),
        ("width", .num w.width), ("height", .num w.height)]

/-- dataclasses.asdict on BoundingBox. -/
def bboxJson (b : BoundingBox) : Json :=
  .obj [("id", .str b.id), ("object_class", .str b.object_class),
        ("position_x", .num b.position_x), ("position_y", .num b.position_y),
        ("position_z", .num b.position_z), ("rotation_z", .num b.rotation_z),
        ("scale_x", .num b.scale_x), ("scale_y", .num b.scale_y),
        ("scale_z", .num b.scale_z), ("confidence", .num b.confidence)]

/-- The returned dictionary of convert_to_json (lines 238-243). -/
def sceneDict (d : SceneData) : Json :=
  .obj [("walls", .arr (d.walls.map wallJson)),
        ("doors", .arr (d.doors.map doorJson)),
        ("windows", .arr (d.windows.map windowJson)),
        ("objects", .arr (d.objects.map bboxJson))]

/-- convert_to_json (lines 195-243): the serialized JSON object persisted
for a scene, or the first conversion error. -/
def convert_to_json (lines : List String) : Except ConvErr Json :=
  (convertScene lines).map sceneDict

/-- The wall records contributed by the input lines, in source order. -/
def wallsOfLines (lines : List (List Char)) : List Wall :=
  lines.filterMap (fun l =>
    match lineStep l with
    | .wallR w => some w
    | _ => none)

/-- The door records contributed by the input lines, in source order. -/
def doorsOfLines (lines : List (List Char)) : List Door :=
  lines.filterMap (fun l =>
    match lineStep l with
    | .doorR d => some d
    | _ => none)

/-- The window records contributed by the input lines, in source order. -/
def windowsOfLines (lines : List (List Char)) : List Window :=
  lines.filterMap (fun l =>
    match lineStep l with
    | .windowR w => some w
    | _ => none)

/-- The bounding-box records contributed by the input lines, in source
order. -/
def objectsOfLines (lines : List (List Char)) : List BoundingBox :=
  lines.filterMap (fun l =>
    match lineStep l with
    | .objR b => some b
    | _ => none)

/-- The canonical ", "-separated join of argument tokens, used to state
grammar-level properties of the numeric-group patterns. -/
def joinT : List (List Char) → List Char
  | [] => []
  | [t] => t
  | t :: ts => t ++ ',' :: ' ' :: joinT ts

/-- Whether an Except value is an error satisfying a predicate. -/
def errWithin (p : ConvErr → Bool) : Except ConvErr α → Bool
  | .error e => p e
  | .ok _ => false

end Pre

/-! ## main.py : serving-side data model and store -/

namespace Api

/-- Pydantic model Point3D of main.py (lines 36-39). -/
structure Point3D where
  x : ℚ
  y : ℚ
  z : ℚ

/-- Pydantic model Wall of main.py (lines 41-45): nested points, camelCase. -/
structure Wall where
  id : String
  startPoint : Point3D
  endPoint : Point3D
  height : ℚ

/-- Pydantic model Door of main.py (lines 47-52). -/
structure Door where
  id : String
  wallId : String
  position : Point3D
  width : ℚ
  height : ℚ

/-- Pydantic model Window of main.py (lines 54-59). -/
structure Window where
  id : String
  wallId : String
  position : Point3D
  width : ℚ
  height : ℚ

/-- Pydantic model BoundingBox of main.py (lines 61-67).  Note the default
confidence is 1.0 there. -/
structure BoundingBox where
  id : String
  objectClass : String
  position : Point3D
  rotation : ℚ
  scale : Point3D
  confidence : ℚ := 1

/-- Pydantic model SceneStructure of main.py (lines 69-73). -/
structure SceneStructure where
  walls : List Wall
  doors : List Door
  windows : List Window
  objects : List BoundingBox

/-- The response of the precomputed-result endpoint (AnalysisResponse,
lines 83-87 and 150-155). -/
structure AnalysisResponse where
  scene : SceneStructure
  inference_time : ℚ
  model_version : String
  point_count : Nat

/-- The one failure the precomputed-result endpoint raises: HTTPException
404 whose detail string interpolates the requested scene id and the list of
available scene ids (lines 141-148). -/
inductive ApiError where
  | notFound404 (sceneId : String) (availableScenes : List String)
deriving DecidableEq

/-- Point3D(**obj): requires numeric x, y, z fields. -/
def pointOfJson (j : Json) : Option Point3D :=
  match j with
  | .obj fs =>
    match jGet fs "x", jGet fs "y", jGet fs "z" with
    | some (.num x), some (.num y), some (.num z) => some ⟨x, y, z⟩
    | _, _, _ => none
  | _ => none

/-- Wall(**w): pydantic validation of one stored wall object. -/
def wallOfJson (j : Json) : Option Wall :=
  match j with
  | .obj fs =>
    match jGet fs "id", (jGet fs "startPoint").bind pointOfJson,
          (jGet fs "endPoint").bind pointOfJson, jGet fs "height" with
    | some (.str i), some sp, some ep, some (.num h) => some ⟨i, sp, ep, h⟩
    | _, _, _, _ => none
  | _ => none

/-- Door(**d): pydantic validation of one stored door object. -/
def doorOfJson (j : Json) : Option Door :=
  match j with
  | .obj fs =>
    match jGet fs "id", jGet fs "wallId", (jGet fs "position").bind pointOfJson,
          jGet fs "width", jGet fs "height" with
    | some (.str i), some (.str w), some p, some (.num wd), some (.num h) =>
      some ⟨i, w, p, wd, h⟩
    | _, _, _, _, _ => none
  | _ => none

/-- Window(**w): pydantic validation of one stored window object. -/
def windowOfJson (j : Json) : Option Window :=
  match j with
  | .obj fs =>
    match jGet fs "id", jGet fs "wallId", (jGet fs "position").bind pointOfJson,
          jGet fs "width", jGet fs "height" with
    | some (.str i), some (.str w), some p, some (.num wd), some (.num h) =>
      some ⟨i, w, p, wd, h⟩
    | _, _, _, _, _ => none
  | _ => none

/-- BoundingBox(**obj): pydantic validation of one stored object; when the
confidence field is absent the model default 1.0 applies. -/
def bboxOfJson (j : Json) : Option BoundingBox :=
  match j with
  | .obj fs =>
    match jGet fs "id", jGet fs "objectClass", (jGet fs "position").bind pointOfJson,
          jGet fs "rotation", (jGet fs "scale").bind pointOfJson with
    | some (.str i), some (.str oc), some p, some (.num r), some sc =>
      match jGet fs "confidence" with
      | none => some ⟨i, oc, p, r, sc, 1⟩
      | some (.num cf) => some ⟨i, oc, p, r, sc, cf⟩
      | some _ => none
    | _, _, _, _, _ => none
  | _ => none

/-- Validate every element of a JSON array. -/
def listOfJson (f : Json → Option α) (j : Json) : Option (List α) :=
  match j with
  | .arr es => es.mapM f
  | _ => none

/-- The body of load_precomputed_results after json.load (lines 261-282):
build the four record lists from data.get(key, []) and assemble the
SceneStructure; any validation failure is caught and turned into None. -/
def sceneOfJson (j : Json) : Option SceneStructure :=
  match j with
  | .obj fs =>
    match listOfJson wallOfJson (jGetD fs "walls" (.arr [])),
          listOfJson doorOfJson (jGetD fs "doors" (.arr [])),
          listOfJson windowOfJson (jGetD fs "windows" (.arr [])),
          listOfJson bboxOfJson (jGetD fs "objects" (.arr [])) with
    | some ws, some ds, some wins, some objs => some ⟨ws, ds, wins, objs⟩
    | _, _, _, _ => none
  | _ => none

/-- The character list of the extension ".ply". -/
def plyPat : List Char := ['.', 'p', 'l', 'y']

/-- The character list of the stem suffix "_results". -/
def resultsPat : List Char := ['_', 'r', 'e', 's', 'u', 'l', 't', 's']

/-- The store: one entry (i, j) per file mock_data/{i}_results.json whose
parsed JSON content is j. -/
abbrev Store := List (String × Json)

/-- load_precomputed_results (lines 241-282): derive the scene id with
filename.replace('.ply', ''), look the file up, and validate its content;
a missing file and a file that fails to load or validate both yield none. -/
def load_precomputed_results (store : Store) (filename : String) : Option SceneStructure :=
  let scene_id : String := ⟨pyReplaceEmpty plyPat filename.toList⟩
  match (List.find? (fun e => e.1 = scene_id) store).map (fun e => e.2) with
  | none => none
  | some j => sceneOfJson j

/-- list_available_scenes (lines 110-116): the stem of each stored file with
every occurrence of "_results" removed. -/
def list_available_scenes (store : Store) : List String :=
  store.map (fun e => ⟨pyReplaceEmpty resultsPat (e.1.toList ++ resultsPat)⟩)

/-- get_precomputed_result (lines 118-155): append ".ply" to the path
parameter, load, and either raise the 404 carrying the requested id and the
available ids, or answer with the scene plus fixed serving metadata. -/
def get_precomputed_result (store : Store) (scene_id : String) : Except ApiError AnalysisResponse :=
  match load_precomputed_results store (scene_id ++ ".ply") with
  | none => .error (.notFound404 scene_id (list_available_scenes store))
  | some scene =>
    .ok ⟨scene, 5 / 100, "SpatialLM1.1-Qwen-0.5B (pre-computed)", 50000⟩

end Api

end SpatialLM

namespace SpatialLM

/-! ## Value-computation helpers -/

namespace Pre

/-- Evaluate pyFloatVal through its mantissa and fractional length. -/
theorem pyFloatVal_eq (t : List Char) (m : ℤ) (k : ℕ) (q : ℚ)
    (h1 : pyMantissa t = m) (h2 : pyFracLen t = k) (h3 : (m : ℚ) / 10 ^ k = q) :
    pyFloatVal t = q := by
  rw [pyFloatVal, h1, h2, h3]

/-- Value of the token 0.0. -/
theorem val_00 : pyFloatVal ['0', '.', '0'] = 0 :=
  pyFloatVal_eq _ 0 1 _ (by decide) (by decide) (by norm_num)

/-- Value of the token 5.0. -/
theorem val_50 : pyFloatVal ['5', '.', '0'] = 5 :=
  pyFloatVal_eq _ 50 1 _ (by decide) (by decide) (by norm_num)

/-- Value of the token 4.0. -/
theorem val_40 : pyFloatVal ['4', '.', '0'] = 4 :=
  pyFloatVal_eq _ 40 1 _ (by decide) (by decide) (by norm_num)

/-- Value of the token 2.5. -/
theorem val_25 : pyFloatVal ['2', '.', '5'] = 5 / 2 :=
  pyFloatVal_eq _ 25 1 _ (by decide) (by decide) (by norm_num)

/-- Value of the token 3.5. -/
theorem val_35 : pyFloatVal ['3', '.', '5'] = 7 / 2 :=
  pyFloatVal_eq _ 35 1 _ (by decide) (by decide) (by norm_num)

/-- Value of the token -2.5. -/
theorem val_m25 : pyFloatVal ['-', '2', '.', '5'] = -(5 / 2) :=
  pyFloatVal_eq _ (-25) 1 _ (by decide) (by decide) (by norm_num)

/-- Value of the token -1.0. -/
theorem val_m10 : pyFloatVal ['-', '1', '.', '0'] = -1 :=
  pyFloatVal_eq _ (-10) 1 _ (by decide) (by decide) (by norm_num)

/-- Value of the token 2.0. -/
theorem val_20 : pyFloatVal ['2', '.', '0'] = 2 :=
  pyFloatVal_eq _ 20 1 _ (by decide) (by decide) (by norm_num)

end Pre

/-! ## takeWhile / dropWhile over structured appends -/

/-- takeWhile stops exactly at the first failing character after a
satisfying block. -/
theorem takeWhile_block (p : Char → Bool) (xs : List Char) (d : Char) (t : List Char)
    (h1 : ∀ c ∈ xs, p c = true) (h2 : p d = false) :
    (xs ++ d :: t).takeWhile p = xs := by
  induction xs with
  | nil => simp [List.takeWhile_cons, h2]
  | cons a as ih =>
    have ha : p a = true := h1 a (by simp)
    rw [List.cons_append, List.takeWhile_cons, ha, if_pos rfl,
      ih (fun c hc => h1 c (by simp [hc]))]

/-- dropWhile lands exactly on the first failing character after a
satisfying block. -/
theorem dropWhile_block (p : Char → Bool) (xs : List Char) (d : Char) (t : List Char)
    (h1 : ∀ c ∈ xs, p c = true) (h2 : p d = false) :
    (xs ++ d :: t).dropWhile p = d :: t := by
  induction xs with
  | nil => simp [List.dropWhile_cons, h2]
  | cons a as ih =>
    have ha : p a = true := h1 a (by simp)
    rw [List.cons_append, List.dropWhile_cons, ha, if_pos rfl,
      ih (fun c hc => h1 c (by simp [hc]))]

/-- A character of the regex class `[\d.-]` is not Python whitespace. -/
theorem pyWs_eq_false_of_classChar (c : Char) (h : classChar c = true) : pyWs c = false := by
  cases hp : pyWs c with
  | false => rfl
  | true =>
    exfalso
    have h6 : c = ' ' ∨ (c = '\t' ∨ (c = '\n' ∨ (c = '\r' ∨ (c = '\x0b' ∨ c = '\x0c')))) := by
      by_contra hno
      push_neg at hno
      obtain ⟨n1, n2, n3, n4, n5, n6⟩ := hno
      simp [pyWs, n1, n2, n3, n4, n5, n6] at hp
    rcases h6 with h1 | h1 | h1 | h1 | h1 | h1 <;> subst h1 <;>
      exact absurd h (by decide)

/-! ## Prefix and occurrence lemmas -/

/-- A prefix occurrence is an occurrence. -/
theorem hasSub_of_isPrefixOf (pat s : List Char) (h : pat.isPrefixOf s = true) :
    hasSub pat s = true := by
  cases s with
  | nil => simpa [hasSub] using h
  | cons c t => simp [hasSub, h]

/-- Occurrence-freeness is inherited by the tail. -/
theorem hasSub_tail (pat : List Char) (c : Char) (t : List Char)
    (h : hasSub pat (c :: t) = false) : hasSub pat t = false := by
  simp only [hasSub, Bool.or_eq_false_iff] at h
  exact h.2

/-- If a pattern is a prefix of s ++ pat ++ rest with s shorter than the
pattern, then the pattern decomposes as s followed by one of its own
prefixes. -/
theorem prefix_split (pat s rest : List Char)
    (h : pat.isPrefixOf (s ++ pat ++ rest) = true) (hlen : s.length < pat.length) :
    pat = s ++ List.take (pat.length - s.length) pat := by
  have htake : pat = List.take pat.length (s ++ (pat ++ rest)) := by
    have := List.prefix_iff_eq_take.mp (List.isPrefixOf_iff_prefix.mp h)
    rwa [List.append_assoc] at this
  rw [List.take_append_eq_append_take, List.take_of_length_le (Nat.le_of_lt hlen),
    List.take_append_of_le_length (Nat.sub_le _ _)] at htake
  exact htake

/-- A pattern whose distinguished last character pc appears nowhere else in
it, and nowhere in s, is not a prefix of s ++ pat ++ rest when s is
nonempty (the occurrence cannot start inside s). -/
theorem not_isPrefixOf_shifted (patPre s rest : List Char) (pc : Char)
    (hpre : pc ∉ patPre) (hs : pc ∉ s) (hne : s ≠ []) :
    (patPre ++ [pc]).isPrefixOf (s ++ (patPre ++ [pc]) ++ rest) = false := by
  cases hp : (patPre ++ [pc]).isPrefixOf (s ++ (patPre ++ [pc]) ++ rest) with
  | false => rfl
  | true =>
    exfalso
    by_cases hlen : (patPre ++ [pc]).length ≤ s.length
    · -- the occurrence would lie entirely inside s
      have htake : patPre ++ [pc] = List.take (patPre ++ [pc]).length s := by
        have htk := List.prefix_iff_eq_take.mp (List.isPrefixOf_iff_prefix.mp hp)
        rwa [List.append_assoc, List.take_append_eq_append_take,
          Nat.sub_eq_zero_of_le hlen, List.take_zero, List.append_nil] at htk
      have : pc ∈ List.take (patPre ++ [pc]).length s := by
        rw [← htake]; simp
      exact hs (List.mem_of_mem_take this)
    · -- the occurrence would span the boundary: pc would occur twice
      push_neg at hlen
      have hsplit := prefix_split (patPre ++ [pc]) s rest hp hlen
      have hs1 : 0 < s.length := List.length_pos.mpr hne
      have hkle : (patPre ++ [pc]).length - s.length ≤ patPre.length := by
        have : (patPre ++ [pc]).length = patPre.length + 1 := by simp
        omega
      rw [List.take_append_of_le_length hkle] at hsplit
      have : pc ∈ s ++ List.take ((patPre ++ [pc]).length - s.length) patPre := by
        rw [← hsplit]; simp
      rcases List.mem_append.mp this with h | h
      · exact hs h
      · exact hpre (List.mem_of_mem_take h)

/-- A border-free pattern that does not occur in s is not a prefix of
s ++ pat ++ rest when s is nonempty. -/
theorem not_isPrefixOf_shifted_noBorder (pat s rest : List Char)
    (hnb : NoBorder pat = true) (hne : s ≠ [])
    (hsub : hasSub pat s = false) :
    pat.isPrefixOf (s ++ pat ++ rest) = false := by
  cases hp : pat.isPrefixOf (s ++ pat ++ rest) with
  | false => rfl
  | true =>
    exfalso
    by_cases hlen : pat.length ≤ s.length
    · -- the occurrence lies entirely inside s: contradiction with hsub
      have htake : pat = List.take pat.length s := by
        have htk := List.prefix_iff_eq_take.mp (List.isPrefixOf_iff_prefix.mp hp)
        rwa [List.append_assoc, List.take_append_eq_append_take,
          Nat.sub_eq_zero_of_le hlen, List.take_zero, List.append_nil] at htk
      have hpref2 : pat.isPrefixOf s = true :=
        List.isPrefixOf_iff_prefix.mpr (List.prefix_iff_eq_take.mpr htake)
      rw [hasSub_of_isPrefixOf pat s hpref2] at hsub
      exact Bool.noConfusion hsub
    · -- spanning occurrence: pat would have a border
      push_neg at hlen
      have hsplit := prefix_split pat s rest hp hlen
      have hs1 : 0 < s.length := List.length_pos.mpr hne
      have hdrop : List.drop s.length pat = List.take (pat.length - s.length) pat := by
        conv_lhs => rw [hsplit]
        rw [List.drop_left]
      have hall := List.all_eq_true.mp hnb (pat.length - s.length)
        (by rw [List.mem_range]; omega)
      simp only [Bool.or_eq_true, decide_eq_true_eq] at hall
      rcases hall with h | h
      · omega
      · apply h
        rw [← hdrop]
        congr 1
        omega

/-! ## reSearch lemmas -/

namespace Pre

/-- Searching s ++ u is searching u when no suffix position inside s can
match. -/
theorem reSearch_skip (m : List Char → Option α) (s u : List Char)
    (h : ∀ s₁ s₂, s = s₁ ++ s₂ → s₂ ≠ [] → m (s₂ ++ u) = none) :
    reSearch m (s ++ u) = reSearch m u := by
  induction s with
  | nil => rfl
  | cons c t ih =>
    have h0 : m ((c :: t) ++ u) = none := h [] (c :: t) rfl (by simp)
    rw [List.cons_append] at h0 ⊢
    simp only [reSearch]
    rw [h0]
    exact ih (fun s₁ s₂ hs hne => h (c :: s₁) s₂ (by rw [hs, List.cons_append]) hne)

/-- The search fails when the match fails at every suffix position. -/
theorem reSearch_none (m : List Char → Option α) (s : List Char)
    (h : ∀ s₁ s₂, s = s₁ ++ s₂ → m s₂ = none) :
    reSearch m s = none := by
  induction s with
  | nil => exact h [] [] rfl
  | cons c t ih =>
    simp only [reSearch]
    rw [h [] (c :: t) rfl]
    exact ih (fun s₁ s₂ hs => h (c :: s₁) s₂ (by rw [hs, List.cons_append]))

/-- Searching for a constructor pattern `Ctor\(` in preL ++ pat ++ body is
exactly running the after-pattern matcher on body, provided the opening
parenthesis occurs nowhere but at the end of the pattern and the head
character of the pattern does not recur inside it. -/
theorem ctorSearch_at (f : List Char → Option β) (pat patPre preL body : List Char)
    (hd : Char) (tl : List Char)
    (hsplit : pat = patPre ++ ['('])
    (hcons : pat = hd :: tl)
    (hhd : hd ∉ tl)
    (hpp : '(' ∉ patPre)
    (hpre : '(' ∉ preL)
    (hbody : '(' ∉ body) :
    reSearch (fun s => if pat.isPrefixOf s then f (s.drop pat.length) else none)
      (preL ++ pat ++ body) = f body := by
  have hparen : '(' ∈ pat := by rw [hsplit]; simp
  rw [List.append_assoc]
  rw [reSearch_skip _ preL (pat ++ body) ?hskip]
  case hskip =>
    intro s₁ s₂ hs hne
    have hs2 : '(' ∉ s₂ := fun hmem => hpre (by rw [hs]; exact List.mem_append.mpr (Or.inr hmem))
    have hnp : pat.isPrefixOf (s₂ ++ pat ++ body) = false := by
      rw [hsplit]
      exact not_isPrefixOf_shifted patPre s₂ body '(' hpp hs2 hne
    rw [← List.append_assoc]
    simp only [hnp, Bool.false_eq_true, if_false]
  -- now at the constructor position
  have hparen2 : '(' ∈ hd :: tl := by rw [← hcons]; exact hparen
  have hself2 : (hd :: tl).isPrefixOf (hd :: (tl ++ body)) = true := by
    rw [← List.cons_append, ← hcons]
    exact List.isPrefixOf_iff_prefix.mpr (List.prefix_append pat body)
  have hdrop : List.drop (hd :: tl).length (hd :: (tl ++ body)) = body := by
    rw [List.length_cons, List.drop_succ_cons, List.drop_left]
  rw [hcons, List.cons_append]
  simp only [reSearch]
  rw [if_pos hself2, hdrop]
  cases hf : f body with
  | some r => rfl
  | none =>
    apply reSearch_none
    intro s₁ s₂ hs
    show (if (hd :: tl).isPrefixOf s₂ = true then f (s₂.drop (hd :: tl).length) else none) = none
    rcases List.append_eq_append_iff.mp hs.symm with ⟨a, ha1, ha2⟩ | ⟨c, hc1, hc2⟩
    · -- s₂ = a ++ body with a a suffix of tl
      cases a with
      | nil =>
        -- s₂ = body : the pattern cannot occur there, it contains '('
        rw [List.nil_append] at ha2
        subst ha2
        cases hp : (hd :: tl).isPrefixOf s₂ with
        | false => simp [hp]
        | true =>
          exfalso
          exact hbody ((List.isPrefixOf_iff_prefix.mp hp).subset hparen2)
      | cons x a2 =>
        -- s₂ starts with a character of tl, which is not hd
        have hx : x ∈ tl := by rw [ha1]; simp
        have hxhd : (hd == x) = false := by
          rw [beq_eq_false_iff_ne]
          intro hcontra
          rw [hcontra] at hhd
          exact hhd hx
        subst ha2
        simp [List.isPrefixOf, hxhd]
    · -- s₂ is a suffix of body
      cases hp : (hd :: tl).isPrefixOf s₂ with
      | false => simp [hp]
      | true =>
        exfalso
        have : '(' ∈ s₂ := (List.isPrefixOf_iff_prefix.mp hp).subset hparen2
        exact hbody (by rw [hc2]; exact List.mem_append.mpr (Or.inr this))

/-! ## Group-matcher lemmas -/

/-- dropWhile does not move past a failing head. -/
theorem dropWhile_cons_neg (p : Char → Bool) (c : Char) (t : List Char) (h : p c = false) :
    (c :: t).dropWhile p = c :: t := by
  rw [List.dropWhile_cons, h]
  simp

/-- Every character of a join is a token character, a comma or a space. -/
theorem mem_joinT (ts : List (List Char)) (c : Char) (h : c ∈ joinT ts) :
    (∃ t ∈ ts, c ∈ t) ∨ c = ',' ∨ c = ' ' := by
  induction ts with
  | nil => simp [joinT] at h
  | cons t ts2 ih =>
    cases ts2 with
    | nil =>
      have hj : joinT [t] = t := rfl
      rw [hj] at h
      exact Or.inl ⟨t, by simp, h⟩
    | cons t2 ts3 =>
      have hj : joinT (t :: t2 :: ts3) = t ++ ',' :: ' ' :: joinT (t2 :: ts3) := rfl
      rw [hj] at h
      rcases List.mem_append.mp h with h1 | h1
      · exact Or.inl ⟨t, by simp, h1⟩
      · simp only [List.mem_cons] at h1
        rcases h1 with h2 | h2 | h2
        · exact Or.inr (Or.inl h2)
        · exact Or.inr (Or.inr h2)
        · rcases ih h2 with ⟨t3, ht3, hc3⟩ | h3
          · exact Or.inl ⟨t3, by simp [ht3], hc3⟩
          · exact Or.inr h3

/-- A join of whitespace-free tokens followed by the closing parenthesis is
untouched by the whitespace skip of the `\s*` separator. -/
theorem dropWhile_pyWs_joinT (ts : List (List Char)) (tail : List Char)
    (hsafe : ∀ t ∈ ts, ∀ c ∈ t, pyWs c = false) :
    (joinT ts ++ ')' :: tail).dropWhile pyWs = joinT ts ++ ')' :: tail := by
  cases ts with
  | nil => exact dropWhile_cons_neg pyWs ')' tail (by decide)
  | cons t ts2 =>
    cases t with
    | nil =>
      cases ts2 with
      | nil => exact dropWhile_cons_neg pyWs ')' tail (by decide)
      | cons t2 ts3 =>
        show ((([] : List Char) ++ ',' :: ' ' :: joinT (t2 :: ts3)) ++ ')' :: tail).dropWhile pyWs = _
        rw [List.nil_append, List.cons_append]
        exact dropWhile_cons_neg pyWs ',' _ (by decide)
    | cons c t0 =>
      have hc : pyWs c = false := hsafe (c :: t0) (by simp) c (by simp)
      cases ts2 with
      | nil =>
        show ((c :: t0) ++ ')' :: tail).dropWhile pyWs = _
        rw [List.cons_append]
        exact dropWhile_cons_neg pyWs c _ hc
      | cons t2 ts3 =>
        show (((c :: t0) ++ ',' :: ' ' :: joinT (t2 :: ts3)) ++ ')' :: tail).dropWhile pyWs = _
        rw [List.cons_append, List.cons_append]
        exact dropWhile_cons_neg pyWs c _ hc

/-- Successful match of n numeric groups: on a join of nonempty all-class
tokens the matcher returns exactly those tokens. -/
theorem matchNumGroups_join (ts : List (List Char)) (tail : List Char)
    (hne : ts ≠ [])
    (hgood : ∀ t ∈ ts, t ≠ [] ∧ ∀ c ∈ t, classChar c = true) :
    matchNumGroups ts.length (joinT ts ++ ')' :: tail) = some (ts, ')' :: tail) := by
  induction ts with
  | nil => exact absurd rfl hne
  | cons t ts2 ih =>
    obtain ⟨htne, htc⟩ := hgood t (by simp)
    cases ts2 with
    | nil =>
      have h1 : (t ++ ')' :: tail).takeWhile classChar = t :=
        takeWhile_block classChar t ')' tail htc (by decide)
      have h2 : (t ++ ')' :: tail).dropWhile classChar = ')' :: tail :=
        dropWhile_block classChar t ')' tail htc (by decide)
      show matchNumGroups 1 (joinT [t] ++ ')' :: tail) = some ([t], ')' :: tail)
      rw [show joinT [t] = t from rfl]
      simp only [matchNumGroups, h1, h2]
      simp [htne]
    | cons t2 ts3 =>
      have hb : joinT (t :: t2 :: ts3) = t ++ ',' :: ' ' :: joinT (t2 :: ts3) := rfl
      have hassoc : (t ++ ',' :: ' ' :: joinT (t2 :: ts3)) ++ ')' :: tail
          = t ++ ',' :: (' ' :: (joinT (t2 :: ts3) ++ ')' :: tail)) := by
        rw [List.append_assoc]
        rfl
      have h1 : (t ++ ',' :: (' ' :: (joinT (t2 :: ts3) ++ ')' :: tail))).takeWhile classChar = t :=
        takeWhile_block classChar t ',' _ htc (by decide)
      have h2 : (t ++ ',' :: (' ' :: (joinT (t2 :: ts3) ++ ')' :: tail))).dropWhile classChar
          = ',' :: (' ' :: (joinT (t2 :: ts3) ++ ')' :: tail)) :=
        dropWhile_block classChar t ',' _ htc (by decide)
      have hws : (' ' :: (joinT (t2 :: ts3) ++ ')' :: tail)).dropWhile pyWs
          = joinT (t2 :: ts3) ++ ')' :: tail := by
        rw [List.dropWhile_cons]
        rw [show pyWs ' ' = true from by decide, if_pos rfl]
        exact dropWhile_pyWs_joinT (t2 :: ts3) tail
          (fun t4 ht4 c hc => pyWs_eq_false_of_classChar c ((hgood t4 (by simp [ht4])).2 c hc))
      have hrec := ih (by simp) (fun t4 ht4 => hgood t4 (by simp [ht4]))
      show matchNumGroups (ts3.length + 2) (joinT (t :: t2 :: ts3) ++ ')' :: tail)
          = some (t :: t2 :: ts3, ')' :: tail)
      rw [hb, hassoc]
      simp only [matchNumGroups, h1, h2]
      rw [if_neg htne]
      rw [hws]
      rw [show (t2 :: ts3).length = ts3.length + 1 from by simp] at hrec
      rw [hrec]

/-- Successful match of the groups-plus-closing-parenthesis tail. -/
theorem matchTail_join (ts : List (List Char)) (tail : List Char)
    (hne : ts ≠ [])
    (hgood : ∀ t ∈ ts, t ≠ [] ∧ ∀ c ∈ t, classChar c = true) :
    matchTail ts.length (joinT ts ++ ')' :: tail) = some ts := by
  rw [matchTail, matchNumGroups_join ts tail hne hgood]
  rfl

/-- The first character dropped by dropWhile fails the predicate. -/
theorem dropWhile_head_false (p : Char → Bool) (l : List Char) (b : Char) (d : List Char)
    (h : l.dropWhile p = b :: d) : p b = false := by
  induction l with
  | nil => simp [List.dropWhile] at h
  | cons c t ih =>
    rw [List.dropWhile_cons] at h
    by_cases hc : p c = true
    · rw [if_pos hc] at h
      exact ih h
    · rw [if_neg hc] at h
      injection h with hb _
      subst hb
      exact Bool.eq_false_iff.mpr hc

/-- Failed match: when every token avoids the separator characters but some
token is empty or contains a character outside the class `[\d.-]`, the
groups-plus-closing-parenthesis match fails. -/
theorem matchTail_join_none (ts : List (List Char)) (tail : List Char)
    (hne : ts ≠ [])
    (hsafe : ∀ t ∈ ts, ∀ c ∈ t, c ≠ ',' ∧ c ≠ ')' ∧ pyWs c = false)
    (hbad : ∃ t ∈ ts, ¬ (t ≠ [] ∧ ∀ c ∈ t, classChar c = true)) :
    matchTail ts.length (joinT ts ++ ')' :: tail) = none := by
  induction ts with
  | nil => exact absurd rfl hne
  | cons t ts2 ih =>
    by_cases hgt : t ≠ [] ∧ ∀ c ∈ t, classChar c = true
    · -- head token well formed: the offending token lies in the tail
      obtain ⟨tb, htb, hbadb⟩ := hbad
      have hts2 : ts2 ≠ [] := by
        intro h0
        subst h0
        simp only [List.mem_singleton] at htb
        subst htb
        exact hbadb hgt
      obtain ⟨t2, ts3, rfl⟩ : ∃ t2 ts3, ts2 = t2 :: ts3 := by
        cases ts2 with
        | nil => exact absurd rfl hts2
        | cons a b => exact ⟨a, b, rfl⟩
      obtain ⟨htne, htc⟩ := hgt
      have htb2 : tb ∈ t2 :: ts3 := by
        simp only [List.mem_cons] at htb
        rcases htb with h0 | h0
        · subst h0
          exact absurd ⟨htne, htc⟩ hbadb
        · exact List.mem_cons.mpr h0
      have hassoc : (t ++ ',' :: ' ' :: joinT (t2 :: ts3)) ++ ')' :: tail
          = t ++ ',' :: (' ' :: (joinT (t2 :: ts3) ++ ')' :: tail)) := by
        rw [List.append_assoc]
        rfl
      have h1 : (t ++ ',' :: (' ' :: (joinT (t2 :: ts3) ++ ')' :: tail))).takeWhile classChar = t :=
        takeWhile_block classChar t ',' _ htc (by decide)
      have h2 : (t ++ ',' :: (' ' :: (joinT (t2 :: ts3) ++ ')' :: tail))).dropWhile classChar
          = ',' :: (' ' :: (joinT (t2 :: ts3) ++ ')' :: tail)) :=
        dropWhile_block classChar t ',' _ htc (by decide)
      have hws : (' ' :: (joinT (t2 :: ts3) ++ ')' :: tail)).dropWhile pyWs
          = joinT (t2 :: ts3) ++ ')' :: tail := by
        rw [List.dropWhile_cons, show pyWs ' ' = true from by decide, if_pos rfl]
        exact dropWhile_pyWs_joinT (t2 :: ts3) tail
          (fun t4 ht4 c hc => (hsafe t4 (by simp [ht4]) c hc).2.2)
      have houter : matchNumGroups (ts3.length + 2) (joinT (t :: t2 :: ts3) ++ ')' :: tail)
          = (match matchNumGroups (ts3.length + 1) (joinT (t2 :: ts3) ++ ')' :: tail) with
             | some (gs, r) => some (t :: gs, r)
             | none => none) := by
        rw [show joinT (t :: t2 :: ts3) = t ++ ',' :: ' ' :: joinT (t2 :: ts3) from rfl, hassoc]
        simp only [matchNumGroups, h1, h2]
        rw [if_neg htne, hws]
      have hrec : matchTail (ts3.length + 1) (joinT (t2 :: ts3) ++ ')' :: tail) = none := by
        have := ih (by simp) (fun t4 ht4 c hc => hsafe t4 (by simp [ht4]) c hc) ⟨tb, htb2, hbadb⟩
        simpa using this
      show matchTail (ts3.length + 2) (joinT (t :: t2 :: ts3) ++ ')' :: tail) = none
      rw [matchTail, houter]
      cases hin : matchNumGroups (ts3.length + 1) (joinT (t2 :: ts3) ++ ')' :: tail) with
      | none => rfl
      | some p =>
        obtain ⟨gs, r⟩ := p
        rw [matchTail, hin] at hrec
        cases r with
        | nil => rfl
        | cons rc rt =>
          by_cases hrc : rc = ')'
          · subst hrc
            simp at hrec
          · split
            · rename_i gs2 r2 heq
              exfalso
              rw [Option.some.injEq, Prod.mk.injEq] at heq
              obtain ⟨_, heq2⟩ := heq
              injection heq2 with heq3 _
              exact hrc heq3
            · rfl
    · -- head token itself is empty or contains a character outside the class
      by_cases htnil : t = []
      · subst htnil
        cases ts2 with
        | nil =>
          show matchTail 1 (joinT [[]] ++ ')' :: tail) = none
          rw [show joinT [([] : List Char)] = [] from rfl, List.nil_append]
          have htw : (')' :: tail).takeWhile classChar = [] := by
            rw [List.takeWhile_cons, show classChar ')' = false from by decide]
            simp
          rw [matchTail]
          simp only [matchNumGroups, htw]
          simp
        | cons t2 ts3 =>
          show matchTail (ts3.length + 2) (joinT ([] :: t2 :: ts3) ++ ')' :: tail) = none
          rw [show joinT ([] :: t2 :: ts3) = ',' :: ' ' :: joinT (t2 :: ts3) from rfl]
          have htw : ((',' :: ' ' :: joinT (t2 :: ts3)) ++ ')' :: tail).takeWhile classChar
              = [] := by
            rw [List.cons_append, List.takeWhile_cons,
              show classChar ',' = false from by decide]
            simp
          rw [matchTail]
          simp only [matchNumGroups, htw]
          simp
      · -- split t at its first character outside the class
        obtain ⟨b, d0, hd0⟩ : ∃ b d0, t.dropWhile classChar = b :: d0 := by
          cases hdw : t.dropWhile classChar with
          | nil =>
            exfalso
            exact hgt ⟨htnil, List.dropWhile_eq_nil_iff.mp hdw⟩
          | cons b d0 => exact ⟨b, d0, rfl⟩
        have hbclass : classChar b = false := dropWhile_head_false classChar t b d0 hd0
        have hsplitT : t.takeWhile classChar ++ b :: d0 = t := by
          rw [← hd0]
          exact List.takeWhile_append_dropWhile classChar t
        have hg0c : ∀ c ∈ t.takeWhile classChar, classChar c = true :=
          fun c hc => List.mem_takeWhile_imp hc
        have hbmem : b ∈ t := by
          rw [← hsplitT]
          simp
        obtain ⟨hbc1, hbc2, _⟩ := hsafe t (by simp) b hbmem
        cases ts2 with
        | nil =>
          show matchTail 1 (joinT [t] ++ ')' :: tail) = none
          rw [show joinT [t] = t from rfl, ← hsplitT, List.append_assoc, List.cons_append]
          have h1 : ((t.takeWhile classChar) ++ b :: (d0 ++ ')' :: tail)).takeWhile classChar
              = t.takeWhile classChar := takeWhile_block classChar _ b _ hg0c hbclass
          have h2 : ((t.takeWhile classChar) ++ b :: (d0 ++ ')' :: tail)).dropWhile classChar
              = b :: (d0 ++ ')' :: tail) := dropWhile_block classChar _ b _ hg0c hbclass
          rw [matchTail]
          simp only [matchNumGroups, h1, h2]
          by_cases hg0nil : t.takeWhile classChar = []
          · rw [if_pos hg0nil]
          · rw [if_neg hg0nil]
            split
            · rename_i gs2 r2 heq
              exfalso
              rw [Option.some.injEq, Prod.mk.injEq] at heq
              obtain ⟨_, heq2⟩ := heq
              injection heq2 with heq3 _
              exact hbc2 heq3
            · rfl
        | cons t2 ts3 =>
          show matchTail (ts3.length + 2) (joinT (t :: t2 :: ts3) ++ ')' :: tail) = none
          rw [show joinT (t :: t2 :: ts3) = t ++ ',' :: ' ' :: joinT (t2 :: ts3) from rfl,
            ← hsplitT]
          have hassoc2 : ((t.takeWhile classChar ++ b :: d0) ++ ',' :: ' ' :: joinT (t2 :: ts3))
                ++ ')' :: tail
              = t.takeWhile classChar
                ++ b :: (d0 ++ ',' :: ' ' :: (joinT (t2 :: ts3) ++ ')' :: tail)) := by
            simp [List.append_assoc]
          rw [hassoc2]
          have h1 : (t.takeWhile classChar
                ++ b :: (d0 ++ ',' :: ' ' :: (joinT (t2 :: ts3) ++ ')' :: tail))).takeWhile
                classChar
              = t.takeWhile classChar := takeWhile_block classChar _ b _ hg0c hbclass
          have h2 : (t.takeWhile classChar
                ++ b :: (d0 ++ ',' :: ' ' :: (joinT (t2 :: ts3) ++ ')' :: tail))).dropWhile
                classChar
              = b :: (d0 ++ ',' :: ' ' :: (joinT (t2 :: ts3) ++ ')' :: tail)) :=
            dropWhile_block classChar _ b _ hg0c hbclass
          rw [matchTail]
          simp only [matchNumGroups, h1, h2]
          by_cases hg0nil : t.takeWhile classChar = []
          · rw [if_pos hg0nil]
          · rw [if_neg hg0nil]
            split
            · rename_i gs2 r2 heq
              exfalso
              split at heq
              · rename_i r3 heq2
                injection heq2 with hb1 _
                exact hbc1 hb1
              · exact Option.noConfusion heq
            · rfl

/-- The free-text group `([^,]+)` of the Bbox/Door/Window patterns grabs
exactly the label, and the rest of the match proceeds on the numeric part. -/
theorem matchFreeTail_split (label rest : List Char) (n : Nat)
    (hlne : label ≠ []) (hlc : ∀ c ∈ label, c ≠ ',')
    (hrest : rest.dropWhile pyWs = rest) :
    matchFreeTail n (label ++ ',' :: ' ' :: rest)
      = match matchTail n rest with
        | some gs => some (label, gs)
        | none => none := by
  have h1 : (label ++ ',' :: ' ' :: rest).takeWhile (fun c => c ≠ ',') = label :=
    takeWhile_block _ label ',' _ (fun c hc => by simpa using hlc c hc) (by simp)
  have h2 : (label ++ ',' :: ' ' :: rest).dropWhile (fun c => c ≠ ',') = ',' :: ' ' :: rest :=
    dropWhile_block _ label ',' _ (fun c hc => by simpa using hlc c hc) (by simp)
  have hws : (' ' :: rest).dropWhile pyWs = rest := by
    rw [List.dropWhile_cons, show pyWs ' ' = true from by decide, if_pos rfl, hrest]
  simp only [matchFreeTail, h1, h2]
  rw [if_neg hlne, hws]

/-- Characters of the class `[\d.-]` are none of the structural characters. -/
theorem classChar_safe (c : Char) (h : classChar c = true) :
    c ≠ ',' ∧ c ≠ '(' ∧ c ≠ ')' ∧ pyWs c = false := by
  refine ⟨?_, ?_, ?_, pyWs_eq_false_of_classChar c h⟩
  · intro h0; subst h0; exact absurd h (by decide)
  · intro h0; subst h0; exact absurd h (by decide)
  · intro h0; subst h0; exact absurd h (by decide)

/-- The opening parenthesis occurs nowhere in a join of tokens that avoid
it, nor in the closing-parenthesis tail. -/
theorem paren_not_mem_body (ts : List (List Char)) (tail : List Char)
    (hts : ∀ t ∈ ts, ∀ c ∈ t, c ≠ '(') (htail : '(' ∉ tail) :
    '(' ∉ joinT ts ++ ')' :: tail := by
  intro hmem
  rcases List.mem_append.mp hmem with h | h
  · rcases mem_joinT ts '(' h with ⟨t, ht, hc⟩ | h2 | h2
    · exact hts t ht '(' hc rfl
    · exact absurd h2 (by decide)
    · exact absurd h2 (by decide)
  · rcases List.mem_cons.mp h with h2 | h2
    · exact absurd h2 (by decide)
    · exact htail h2

/-- Search localization for the Wall pattern. -/
theorem ctorSearchNum_wall (preL body : List Char) (n : Nat)
    (hpre : '(' ∉ preL) (hbody : '(' ∉ body) :
    ctorSearchNum wallPat n (preL ++ wallPat ++ body) = matchTail n body :=
  ctorSearch_at (matchTail n) wallPat ['W', 'a', 'l', 'l'] preL body
    'W' ['a', 'l', 'l', '('] rfl rfl (by decide) (by decide) hpre hbody

/-- Search localization for the Bbox pattern. -/
theorem ctorSearchFree_bbox (preL body : List Char) (n : Nat)
    (hpre : '(' ∉ preL) (hbody : '(' ∉ body) :
    ctorSearchFree bboxPat n (preL ++ bboxPat ++ body) = matchFreeTail n body :=
  ctorSearch_at (matchFreeTail n) bboxPat ['B', 'b', 'o', 'x'] preL body
    'B' ['b', 'o', 'x', '('] rfl rfl (by decide) (by decide) hpre hbody

/-- Search localization for the Door pattern. -/
theorem ctorSearchFree_door (preL body : List Char) (n : Nat)
    (hpre : '(' ∉ preL) (hbody : '(' ∉ body) :
    ctorSearchFree doorPat n (preL ++ doorPat ++ body) = matchFreeTail n body :=
  ctorSearch_at (matchFreeTail n) doorPat ['D', 'o', 'o', 'r'] preL body
    'D' ['o', 'o', 'r', '('] rfl rfl (by decide) (by decide) hpre hbody

/-- Search localization for the Window pattern. -/
theorem ctorSearchFree_window (preL body : List Char) (n : Nat)
    (hpre : '(' ∉ preL) (hbody : '(' ∉ body) :
    ctorSearchFree windowPat n (preL ++ windowPat ++ body) = matchFreeTail n body :=
  ctorSearch_at (matchFreeTail n) windowPat ['W', 'i', 'n', 'd', 'o', 'w'] preL body
    'W' ['i', 'n', 'd', 'o', 'w', '('] rfl rfl (by decide) (by decide) hpre hbody

/-- float() over tokens it accepts produces exactly their values. -/
theorem pyFloats_ok (ts : List (List Char)) (h : ∀ t ∈ ts, pyFloatValid t = true) :
    pyFloats ts = .ok (ts.map pyFloatVal) := by
  induction ts with
  | nil => rfl
  | cons t ts2 ih =>
    rw [pyFloats, pyFloat, if_pos (h t (by simp)), ih (fun t2 ht2 => h t2 (by simp [ht2]))]
    rfl

/-- float() over a token list containing a rejected token fails. -/
theorem pyFloats_isError (ts : List (List Char)) (hbad : ∃ t ∈ ts, pyFloatValid t = false) :
    ∃ e, pyFloats ts = .error e := by
  induction ts with
  | nil => simp at hbad
  | cons t ts2 ih =>
    by_cases ht : pyFloatValid t = true
    · obtain ⟨tb, htb, hvb⟩ := hbad
      have htb2 : tb ∈ ts2 := by
        rcases List.mem_cons.mp htb with h0 | h0
        · subst h0; rw [ht] at hvb; exact Bool.noConfusion hvb
        · exact h0
      obtain ⟨e, he⟩ := ih ⟨tb, htb2, hvb⟩
      refine ⟨e, ?_⟩
      rw [pyFloats, pyFloat, if_pos ht, he]
    · refine ⟨.floatConvError ⟨t⟩, ?_⟩
      rw [pyFloats, pyFloat, if_neg ht]

/-- Every failure of the float() mapping is a float-conversion ValueError. -/
theorem pyFloats_error_shape (ts : List (List Char)) (e : ConvErr)
    (h : pyFloats ts = .error e) : ∃ tok, e = .floatConvError tok := by
  induction ts with
  | nil => simp [pyFloats] at h
  | cons t ts2 ih =>
    rw [pyFloats] at h
    cases hf : pyFloat t with
    | error e2 =>
      rw [hf] at h
      injection h with h2
      rw [pyFloat] at hf
      by_cases ht : pyFloatValid t = true
      · rw [if_pos ht] at hf; exact Except.noConfusion hf
      · rw [if_neg ht] at hf
        injection hf with h3
        exact ⟨⟨t⟩, by rw [← h2, ← h3]⟩
    | ok v =>
      rw [hf] at h
      cases hr : pyFloats ts2 with
      | error e2 =>
        rw [hr] at h
        injection h with h2
        exact ih (h2 ▸ hr)
      | ok vs =>
        rw [hr] at h
        exact Except.noConfusion h

/-- An error of the code is never the spec's InvalidNumber variant. -/
theorem fromCode_not_invalidNumber (e : ConvErr) (h : e.fromCode = true) :
    e.isInvalidNumber = false := by
  cases e <;> first | rfl | exact Bool.noConfusion h

/-- A successfully parsed wall line: the seven class-conformant float
tokens become the record fields verbatim, with no validation of any kind. -/
theorem parse_wall_line_ok (preL t1 t2 t3 t4 t5 t6 t7 : List Char) (wid : String)
    (hpre : '(' ∉ preL)
    (hgood : ∀ t ∈ [t1, t2, t3, t4, t5, t6, t7], t ≠ [] ∧ ∀ c ∈ t, classChar c = true)
    (hvalid : ∀ t ∈ [t1, t2, t3, t4, t5, t6, t7], pyFloatValid t = true) :
    parse_wall_line ⟨preL ++ wallPat ++ (joinT [t1, t2, t3, t4, t5, t6, t7] ++ ')' :: [])⟩ wid
      = .ok ⟨wid, pyFloatVal t1, pyFloatVal t2, pyFloatVal t3, pyFloatVal t4,
             pyFloatVal t5, pyFloatVal t6, pyFloatVal t7⟩ := by
  have hbody : '(' ∉ joinT [t1, t2, t3, t4, t5, t6, t7] ++ ')' :: [] :=
    paren_not_mem_body _ []
      (fun t ht c hc => (classChar_safe c ((hgood t ht).2 c hc)).2.1) (by simp)
  have hmt : matchTail 7 (joinT [t1, t2, t3, t4, t5, t6, t7] ++ ')' :: [])
      = some [t1, t2, t3, t4, t5, t6, t7] := by
    simpa using matchTail_join [t1, t2, t3, t4, t5, t6, t7] [] (by simp) hgood
  unfold parse_wall_line
  rw [show (String.toList ⟨preL ++ wallPat ++ (joinT [t1, t2, t3, t4, t5, t6, t7] ++ ')' :: [])⟩
        : List Char)
      = preL ++ wallPat ++ (joinT [t1, t2, t3, t4, t5, t6, t7] ++ ')' :: []) from rfl]
  rw [ctorSearchNum_wall preL _ 7 hpre hbody, hmt]
  simp only [pyFloats_ok _ hvalid, List.map_cons, List.map_nil]

/-- A wall line whose argument slots avoid the structural characters but
contain an empty or out-of-class token makes the regex fail: the parse
function raises its generic could-not-parse ValueError. -/
theorem parse_wall_line_err (preL t1 t2 t3 t4 t5 t6 t7 : List Char) (wid : String)
    (hpre : '(' ∉ preL)
    (hsafe : ∀ t ∈ [t1, t2, t3, t4, t5, t6, t7], ∀ c ∈ t,
      c ≠ ',' ∧ c ≠ '(' ∧ c ≠ ')' ∧ pyWs c = false)
    (hbad : ∃ t ∈ [t1, t2, t3, t4, t5, t6, t7], ¬ (t ≠ [] ∧ ∀ c ∈ t, classChar c = true)) :
    parse_wall_line ⟨preL ++ wallPat ++ (joinT [t1, t2, t3, t4, t5, t6, t7] ++ ')' :: [])⟩ wid
      = .error (.couldNotParse "wall"
          ⟨preL ++ wallPat ++ (joinT [t1, t2, t3, t4, t5, t6, t7] ++ ')' :: [])⟩) := by
  have hbody : '(' ∉ joinT [t1, t2, t3, t4, t5, t6, t7] ++ ')' :: [] :=
    paren_not_mem_body _ [] (fun t ht c hc => (hsafe t ht c hc).2.1) (by simp)
  have hmt : matchTail 7 (joinT [t1, t2, t3, t4, t5, t6, t7] ++ ')' :: []) = none := by
    simpa using matchTail_join_none [t1, t2, t3, t4, t5, t6, t7] [] (by simp)
      (fun t ht c hc => ⟨(hsafe t ht c hc).1, (hsafe t ht c hc).2.2.1, (hsafe t ht c hc).2.2.2⟩)
      hbad
  unfold parse_wall_line
  rw [show (String.toList ⟨preL ++ wallPat ++ (joinT [t1, t2, t3, t4, t5, t6, t7] ++ ')' :: [])⟩
        : List Char)
      = preL ++ wallPat ++ (joinT [t1, t2, t3, t4, t5, t6, t7] ++ ')' :: []) from rfl]
  rw [ctorSearchNum_wall preL _ 7 hpre hbody, hmt]

/-- A wall line whose tokens all lie in the regex class but where some token
is rejected by float(): the regex matches, and the uncaught float conversion
ValueError escapes. -/
theorem parse_wall_line_float_err (preL t1 t2 t3 t4 t5 t6 t7 : List Char) (wid : String)
    (hpre : '(' ∉ preL)
    (hgood : ∀ t ∈ [t1, t2, t3, t4, t5, t6, t7], t ≠ [] ∧ ∀ c ∈ t, classChar c = true)
    (hbad : ∃ t ∈ [t1, t2, t3, t4, t5, t6, t7], pyFloatValid t = false) :
    ∃ tok, parse_wall_line
        ⟨preL ++ wallPat ++ (joinT [t1, t2, t3, t4, t5, t6, t7] ++ ')' :: [])⟩ wid
      = .error (.floatConvError tok) := by
  have hbody : '(' ∉ joinT [t1, t2, t3, t4, t5, t6, t7] ++ ')' :: [] :=
    paren_not_mem_body _ []
      (fun t ht c hc => (classChar_safe c ((hgood t ht).2 c hc)).2.1) (by simp)
  have hmt : matchTail 7 (joinT [t1, t2, t3, t4, t5, t6, t7] ++ ')' :: [])
      = some [t1, t2, t3, t4, t5, t6, t7] := by
    simpa using matchTail_join [t1, t2, t3, t4, t5, t6, t7] [] (by simp) hgood
  obtain ⟨e, he⟩ := pyFloats_isError [t1, t2, t3, t4, t5, t6, t7] hbad
  obtain ⟨tok, htok⟩ := pyFloats_error_shape _ e he
  refine ⟨tok, ?_⟩
  unfold parse_wall_line
  rw [show (String.toList ⟨preL ++ wallPat ++ (joinT [t1, t2, t3, t4, t5, t6, t7] ++ ')' :: [])⟩
        : List Char)
      = preL ++ wallPat ++ (joinT [t1, t2, t3, t4, t5, t6, t7] ++ ')' :: []) from rfl]
  rw [ctorSearchNum_wall preL _ 7 hpre hbody, hmt]
  simp only [he, htok]

/-- A bbox line whose numeric slots avoid the structural characters but
contain an empty or out-of-class token fails with the generic
could-not-parse ValueError. -/
theorem parse_bbox_line_err (preL label t1 t2 t3 t4 t5 t6 t7 : List Char) (bid : String)
    (hpre : '(' ∉ preL)
    (hlne : label ≠ []) (hlab : ∀ c ∈ label, c ≠ ',' ∧ c ≠ '(')
    (hsafe : ∀ t ∈ [t1, t2, t3, t4, t5, t6, t7], ∀ c ∈ t,
      c ≠ ',' ∧ c ≠ '(' ∧ c ≠ ')' ∧ pyWs c = false)
    (hbad : ∃ t ∈ [t1, t2, t3, t4, t5, t6, t7], ¬ (t ≠ [] ∧ ∀ c ∈ t, classChar c = true)) :
    parse_bbox_line
        ⟨preL ++ bboxPat
          ++ (label ++ ',' :: ' ' :: (joinT [t1, t2, t3, t4, t5, t6, t7] ++ ')' :: []))⟩ bid
      = .error (.couldNotParse "bbox"
          ⟨preL ++ bboxPat
            ++ (label ++ ',' :: ' ' :: (joinT [t1, t2, t3, t4, t5, t6, t7] ++ ')' :: []))⟩) := by
  have hjb : '(' ∉ joinT [t1, t2, t3, t4, t5, t6, t7] ++ ')' :: [] :=
    paren_not_mem_body _ [] (fun t ht c hc => (hsafe t ht c hc).2.1) (by simp)
  have hbody : '(' ∉ label ++ ',' :: ' ' :: (joinT [t1, t2, t3, t4, t5, t6, t7] ++ ')' :: []) := by
    intro hmem
    rcases List.mem_append.mp hmem with h | h
    · exact (hlab '(' h).2 rfl
    · rcases List.mem_cons.mp h with h2 | h2
      · exact absurd h2 (by decide)
      · rcases List.mem_cons.mp h2 with h3 | h3
        · exact absurd h3 (by decide)
        · exact hjb h3
  have hrest : (joinT [t1, t2, t3, t4, t5, t6, t7] ++ ')' :: []).dropWhile pyWs
      = joinT [t1, t2, t3, t4, t5, t6, t7] ++ ')' :: [] :=
    dropWhile_pyWs_joinT _ [] (fun t ht c hc => (hsafe t ht c hc).2.2.2)
  have hmt : matchTail 7 (joinT [t1, t2, t3, t4, t5, t6, t7] ++ ')' :: []) = none := by
    simpa using matchTail_join_none [t1, t2, t3, t4, t5, t6, t7] [] (by simp)
      (fun t ht c hc => ⟨(hsafe t ht c hc).1, (hsafe t ht c hc).2.2.1, (hsafe t ht c hc).2.2.2⟩)
      hbad
  unfold parse_bbox_line
  rw [show (String.toList ⟨preL ++ bboxPat
        ++ (label ++ ',' :: ' ' :: (joinT [t1, t2, t3, t4, t5, t6, t7] ++ ')' :: []))⟩
        : List Char)
      = preL ++ bboxPat
        ++ (label ++ ',' :: ' ' :: (joinT [t1, t2, t3, t4, t5, t6, t7] ++ ')' :: [])) from rfl]
  rw [ctorSearchFree_bbox preL _ 7 hpre hbody,
    matchFreeTail_split label _ 7 hlne (fun c hc => (hlab c hc).1) hrest, hmt]

/-- A bbox line whose numeric tokens all lie in the regex class but where
some token is rejected by float(): the uncaught conversion error escapes. -/
theorem parse_bbox_line_float_err (preL label t1 t2 t3 t4 t5 t6 t7 : List Char) (bid : String)
    (hpre : '(' ∉ preL)
    (hlne : label ≠ []) (hlab : ∀ c ∈ label, c ≠ ',' ∧ c ≠ '(')
    (hgood : ∀ t ∈ [t1, t2, t3, t4, t5, t6, t7], t ≠ [] ∧ ∀ c ∈ t, classChar c = true)
    (hbad : ∃ t ∈ [t1, t2, t3, t4, t5, t6, t7], pyFloatValid t = false) :
    ∃ tok, parse_bbox_line
        ⟨preL ++ bboxPat
          ++ (label ++ ',' :: ' ' :: (joinT [t1, t2, t3, t4, t5, t6, t7] ++ ')' :: []))⟩ bid
      = .error (.floatConvError tok) := by
  have hjb : '(' ∉ joinT [t1, t2, t3, t4, t5, t6, t7] ++ ')' :: [] :=
    paren_not_mem_body _ []
      (fun t ht c hc => (classChar_safe c ((hgood t ht).2 c hc)).2.1) (by simp)
  have hbody : '(' ∉ label ++ ',' :: ' ' :: (joinT [t1, t2, t3, t4, t5, t6, t7] ++ ')' :: []) := by
    intro hmem
    rcases List.mem_append.mp hmem with h | h
    · exact (hlab '(' h).2 rfl
    · rcases List.mem_cons.mp h with h2 | h2
      · exact absurd h2 (by decide)
      · rcases List.mem_cons.mp h2 with h3 | h3
        · exact absurd h3 (by decide)
        · exact hjb h3
  have hrest : (joinT [t1, t2, t3, t4, t5, t6, t7] ++ ')' :: []).dropWhile pyWs
      = joinT [t1, t2, t3, t4, t5, t6, t7] ++ ')' :: [] :=
    dropWhile_pyWs_joinT _ []
      (fun t ht c hc => pyWs_eq_false_of_classChar c ((hgood t ht).2 c hc))
  have hmt : matchTail 7 (joinT [t1, t2, t3, t4, t5, t6, t7] ++ ')' :: [])
      = some [t1, t2, t3, t4, t5, t6, t7] := by
    simpa using matchTail_join [t1, t2, t3, t4, t5, t6, t7] [] (by simp) hgood
  obtain ⟨e, he⟩ := pyFloats_isError [t1, t2, t3, t4, t5, t6, t7] hbad
  obtain ⟨tok, htok⟩ := pyFloats_error_shape _ e he
  refine ⟨tok, ?_⟩
  unfold parse_bbox_line
  rw [show (String.toList ⟨preL ++ bboxPat
        ++ (label ++ ',' :: ' ' :: (joinT [t1, t2, t3, t4, t5, t6, t7] ++ ')' :: []))⟩
        : List Char)
      = preL ++ bboxPat
        ++ (label ++ ',' :: ' ' :: (joinT [t1, t2, t3, t4, t5, t6, t7] ++ ')' :: [])) from rfl]
  rw [ctorSearchFree_bbox preL _ 7 hpre hbody,
    matchFreeTail_split label _ 7 hlne (fun c hc => (hlab c hc).1) hrest, hmt]
  simp only [he, htok]

/-! ## Conversion-loop lemmas -/

/-- The output of the line loop: each accumulator list is extended, in
encounter order, by exactly the records the lines contribute. -/
theorem go_characterization (lines : List (List Char)) (acc d : SceneData)
    (h : go lines acc = .ok d) :
    d.walls = acc.walls ++ wallsOfLines lines ∧
    d.doors = acc.doors ++ doorsOfLines lines ∧
    d.windows = acc.windows ++ windowsOfLines lines ∧
    d.objects = acc.objects ++ objectsOfLines lines := by
  induction lines generalizing acc with
  | nil =>
    simp only [go] at h
    injection h with h2
    subst h2
    simp [wallsOfLines, doorsOfLines, windowsOfLines, objectsOfLines]
  | cons l rest ih =>
    simp only [go] at h
    cases hls : lineStep l with
    | skip =>
      rw [hls] at h
      obtain ⟨h1, h2, h3, h4⟩ := ih acc h
      refine ⟨?_, ?_, ?_, ?_⟩ <;>
        simp [wallsOfLines, doorsOfLines, windowsOfLines, objectsOfLines,
          List.filterMap_cons, hls, h1, h2, h3, h4]
    | bad e =>
      rw [hls] at h
      exact Except.noConfusion h
    | wallR w =>
      rw [hls] at h
      obtain ⟨h1, h2, h3, h4⟩ := ih _ h
      refine ⟨?_, ?_, ?_, ?_⟩ <;>
        simp [wallsOfLines, doorsOfLines, windowsOfLines, objectsOfLines,
          List.filterMap_cons, hls, h1, h2, h3, h4]
    | doorR d2 =>
      rw [hls] at h
      obtain ⟨h1, h2, h3, h4⟩ := ih _ h
      refine ⟨?_, ?_, ?_, ?_⟩ <;>
        simp [wallsOfLines, doorsOfLines, windowsOfLines, objectsOfLines,
          List.filterMap_cons, hls, h1, h2, h3, h4]
    | windowR w =>
      rw [hls] at h
      obtain ⟨h1, h2, h3, h4⟩ := ih _ h
      refine ⟨?_, ?_, ?_, ?_⟩ <;>
        simp [wallsOfLines, doorsOfLines, windowsOfLines, objectsOfLines,
          List.filterMap_cons, hls, h1, h2, h3, h4]
    | objR b =>
      rw [hls] at h
      obtain ⟨h1, h2, h3, h4⟩ := ih _ h
      refine ⟨?_, ?_, ?_, ?_⟩ <;>
        simp [wallsOfLines, doorsOfLines, windowsOfLines, objectsOfLines,
          List.filterMap_cons, hls, h1, h2, h3, h4]

/-- Every failure of parse_wall_line is one of the code's two ValueErrors. -/
theorem parse_wall_line_error_fromCode (line wid : String) (e : ConvErr)
    (h : parse_wall_line line wid = .error e) : e.fromCode = true := by
  unfold parse_wall_line at h
  split at h
  · injection h with h2
    rw [← h2]
    rfl
  · split at h
    · rename_i e2 heq
      injection h with h2
      obtain ⟨tok, htok⟩ := pyFloats_error_shape _ e2 heq
      rw [← h2, htok]
      rfl
    · exact Except.noConfusion h
    · injection h with h2
      rw [← h2]
      rfl

/-- Every failure of parse_bbox_line is one of the code's two ValueErrors. -/
theorem parse_bbox_line_error_fromCode (line bid : String) (e : ConvErr)
    (h : parse_bbox_line line bid = .error e) : e.fromCode = true := by
  unfold parse_bbox_line at h
  split at h
  · injection h with h2
    rw [← h2]
    rfl
  · split at h
    · rename_i e2 heq
      injection h with h2
      obtain ⟨tok, htok⟩ := pyFloats_error_shape _ e2 heq
      rw [← h2, htok]
      rfl
    · exact Except.noConfusion h
    · injection h with h2
      rw [← h2]
      rfl

/-- Every failure of parse_door_line is one of the code's two ValueErrors. -/
theorem parse_door_line_error_fromCode (line did : String) (e : ConvErr)
    (h : parse_door_line line did = .error e) : e.fromCode = true := by
  unfold parse_door_line at h
  split at h
  · injection h with h2
    rw [← h2]
    rfl
  · split at h
    · rename_i e2 heq
      injection h with h2
      obtain ⟨tok, htok⟩ := pyFloats_error_shape _ e2 heq
      rw [← h2, htok]
      rfl
    · exact Except.noConfusion h
    · injection h with h2
      rw [← h2]
      rfl

/-- Every failure of parse_window_line is one of the code's two
ValueErrors. -/
theorem parse_window_line_error_fromCode (line wid : String) (e : ConvErr)
    (h : parse_window_line line wid = .error e) : e.fromCode = true := by
  unfold parse_window_line at h
  split at h
  · injection h with h2
    rw [← h2]
    rfl
  · split at h
    · rename_i e2 heq
      injection h with h2
      obtain ⟨tok, htok⟩ := pyFloats_error_shape _ e2 heq
      rw [← h2, htok]
      rfl
    · exact Except.noConfusion h
    · injection h with h2
      rw [← h2]
      rfl

/-- A failing line step carries a parse failure of the code. -/
theorem lineStep_bad_fromCode (l : List Char) (e : ConvErr)
    (h : lineStep l = .bad e) : e.fromCode = true := by
  simp only [lineStep] at h
  split at h
  · exact LineRec.noConfusion h
  · split at h
    · split at h
      · split at h
        · rename_i e2 heq
          injection h with h2
          exact h2 ▸ parse_bbox_line_error_fromCode _ _ e2 heq
        · exact LineRec.noConfusion h
      · split at h
        · split at h
          · rename_i e2 heq
            injection h with h2
            exact h2 ▸ parse_wall_line_error_fromCode _ _ e2 heq
          · exact LineRec.noConfusion h
        · split at h
          · split at h
            · rename_i e2 heq
              injection h with h2
              exact h2 ▸ parse_door_line_error_fromCode _ _ e2 heq
            · exact LineRec.noConfusion h
          · split at h
            · split at h
              · rename_i e2 heq
                injection h with h2
                exact h2 ▸ parse_window_line_error_fromCode _ _ e2 heq
              · exact LineRec.noConfusion h
            · exact LineRec.noConfusion h
    · exact LineRec.noConfusion h

/-- Every failure of the line loop is one of the code's two ValueErrors. -/
theorem go_error_fromCode (lines : List (List Char)) (acc : SceneData) (e : ConvErr)
    (h : go lines acc = .error e) : e.fromCode = true := by
  induction lines generalizing acc with
  | nil => simp [go] at h
  | cons l rest ih =>
    simp only [go] at h
    cases hls : lineStep l with
    | skip => rw [hls] at h; exact ih acc h
    | bad e2 =>
      rw [hls] at h
      injection h with h2
      exact h2 ▸ lineStep_bad_fromCode l e2 hls
    | wallR w => rw [hls] at h; exact ih _ h
    | doorR d => rw [hls] at h; exact ih _ h
    | windowR w => rw [hls] at h; exact ih _ h
    | objR b => rw [hls] at h; exact ih _ h

/-- A line with no '=' in its stripped form is skipped. -/
theorem lineStep_skip_noeq (l : List Char) (h2 : (pstripL l).contains '=' = false) :
    lineStep l = .skip := by
  simp only [lineStep]
  by_cases h1 : pstripL l = []
  · rw [if_pos h1]
  · rw [if_neg h1, if_neg (by rw [h2]; simp)]

/-- A line whose identifier prefix is not one of the four recognized ones
is skipped. -/
theorem lineStep_skip_unknown (l : List Char)
    (hb : bboxPre.isPrefixOf (varOf (pstripL l)) = false)
    (hw : wallPre.isPrefixOf (varOf (pstripL l)) = false)
    (hd : doorPre.isPrefixOf (varOf (pstripL l)) = false)
    (hn : windowPre.isPrefixOf (varOf (pstripL l)) = false) :
    lineStep l = .skip := by
  simp only [lineStep]
  by_cases h1 : pstripL l = []
  · rw [if_pos h1]
  · rw [if_neg h1]
    by_cases h2 : (pstripL l).contains '=' = true
    · rw [if_pos h2, if_neg (by rw [hb]; simp), if_neg (by rw [hw]; simp),
        if_neg (by rw [hd]; simp), if_neg (by rw [hn]; simp)]
    · rw [if_neg h2]

/-- A skipped line leaves the loop state untouched. -/
theorem go_cons_skip (l : List Char) (rest : List (List Char)) (acc : SceneData)
    (h : lineStep l = .skip) : go (l :: rest) acc = go rest acc := by
  simp only [go]
  rw [h]

end Pre

/-! ## String-replace lemmas -/

/-- Worker form: deleting every occurrence of a border-free pattern from
s ++ pat removes exactly the final pattern when pat does not occur in s. -/
theorem replaceEmptyGo_append_pat (pat s : List Char) (fuel : Nat)
    (hnb : NoBorder pat = true) (hpat : pat ≠ [])
    (hsub : hasSub pat s = false) (hfuel : (s ++ pat).length ≤ fuel) :
    replaceEmptyGo pat fuel (s ++ pat) = s := by
  induction s generalizing fuel with
  | nil =>
    obtain ⟨p0, pt, hp⟩ : ∃ p0 pt, pat = p0 :: pt := by
      cases pat with
      | nil => exact absurd rfl hpat
      | cons p0 pt => exact ⟨p0, pt, rfl⟩
    cases fuel with
    | zero =>
      rw [List.nil_append, hp] at hfuel
      simp at hfuel
    | succ f =>
      rw [List.nil_append, hp]
      simp only [replaceEmptyGo]
      rw [if_pos ⟨by rw [← hp]; exact hpat,
        List.isPrefixOf_iff_prefix.mpr (by rw [← hp])⟩]
      rw [List.drop_length]
      cases f <;> rfl
  | cons c t ih =>
    cases fuel with
    | zero =>
      simp at hfuel
    | succ f =>
      rw [List.cons_append]
      simp only [replaceEmptyGo]
      have hnp : pat.isPrefixOf (c :: (t ++ pat)) = false := by
        have h0 := not_isPrefixOf_shifted_noBorder pat (c :: t) [] hnb (by simp) hsub
        rw [List.append_nil, List.cons_append] at h0
        exact h0
      rw [if_neg (fun hand => by rw [hnp] at hand; exact Bool.noConfusion hand.2)]
      rw [ih f (hasSub_tail pat c t hsub)
        (by simp only [List.length_append, List.length_cons] at hfuel ⊢; omega)]

/-- Python replace: s.replace(pat, "") on s ++ pat gives back s whenever the
border-free pattern pat does not occur inside s. -/
theorem pyReplaceEmpty_append_pat (pat s : List Char)
    (hnb : NoBorder pat = true) (hpat : pat ≠ []) (hsub : hasSub pat s = false) :
    pyReplaceEmpty pat (s ++ pat) = s :=
  replaceEmptyGo_append_pat pat s (s ++ pat).length hnb hpat hsub le_rfl

/-! ## Claim C9 -/

/-- C9: the input line wall_0=Wall(0.0, 0.0, 0.0, 5.0, 0.0, 0.0, 2.5)
parses successfully to a Wall record with id "wall_0", start point
(0, 0, 0), end point (5, 0, 0) and height 2.5. -/
theorem C9_example_wall :
    Pre.parse_wall_line "wall_0=Wall(0.0, 0.0, 0.0, 5.0, 0.0, 0.0, 2.5)" "wall_0"
      = .ok ⟨"wall_0", 0, 0, 0, 5, 0, 0, 5 / 2⟩ := by
  have h0 : Pre.parse_wall_line "wall_0=Wall(0.0, 0.0, 0.0, 5.0, 0.0, 0.0, 2.5)" "wall_0"
      = .ok ⟨"wall_0", Pre.pyFloatVal ['0', '.', '0'], Pre.pyFloatVal ['0', '.', '0'],
             Pre.pyFloatVal ['0', '.', '0'], Pre.pyFloatVal ['5', '.', '0'],
             Pre.pyFloatVal ['0', '.', '0'], Pre.pyFloatVal ['0', '.', '0'],
             Pre.pyFloatVal ['2', '.', '5']⟩ := rfl
  rw [h0]
  simp only [Pre.val_00, Pre.val_50, Pre.val_25]

/-! ## Claim C8 -/

/-- C8 (amended): the conversion pipeline enforces no positivity invariant:
a wall line built from any seven float tokens accepted by the grammar
parses successfully and its record carries the token values verbatim — in
particular a zero or negative height passes through unchecked (the original
claim, that every Wall has height > 0 and every Door/Window has positive
width and height, is refuted by C8_counterexample). -/
theorem C8_no_validation (preL t1 t2 t3 t4 t5 t6 t7 : List Char) (wid : String)
    (hpre : '(' ∉ preL)
    (hgood : ∀ t ∈ [t1, t2, t3, t4, t5, t6, t7], t ≠ [] ∧ ∀ c ∈ t, classChar c = true)
    (hvalid : ∀ t ∈ [t1, t2, t3, t4, t5, t6, t7], Pre.pyFloatValid t = true) :
    Pre.parse_wall_line
        ⟨preL ++ Pre.wallPat ++ (Pre.joinT [t1, t2, t3, t4, t5, t6, t7] ++ ')' :: [])⟩ wid
      = .ok ⟨wid, Pre.pyFloatVal t1, Pre.pyFloatVal t2, Pre.pyFloatVal t3, Pre.pyFloatVal t4,
             Pre.pyFloatVal t5, Pre.pyFloatVal t6, Pre.pyFloatVal t7⟩ :=
  Pre.parse_wall_line_ok preL t1 t2 t3 t4 t5 t6 t7 wid hpre hgood hvalid

/-- Witness for C8: a wall line with height token -2.5 parses successfully
to a record whose height is negative. -/
theorem C8_witness :
    Pre.parse_wall_line "wall_0=Wall(0.0, 0.0, 0.0, 5.0, 0.0, 0.0, -2.5)" "wall_0"
      = .ok ⟨"wall_0", 0, 0, 0, 5, 0, 0, -(5 / 2)⟩ ∧ (-(5 / 2) : ℚ) < 0 := by
  constructor
  · have h := C8_no_validation "wall_0=".toList ['0', '.', '0'] ['0', '.', '0'] ['0', '.', '0']
      ['5', '.', '0'] ['0', '.', '0'] ['0', '.', '0'] ['-', '2', '.', '5'] "wall_0"
      (by decide) (by decide) (by decide)
    simp only [Pre.val_00, Pre.val_50, Pre.val_m25] at h
    exact h
  · norm_num

/-- Counterexample for C8: an assembled scene containing a wall of negative
height and a door of negative width; the pipeline produces and keeps both
records, violating the claimed invariants. -/
theorem C8_counterexample :
    Pre.convertScene ["wall_0=Wall(0.0, 0.0, 0.0, 5.0, 0.0, 0.0, -2.5)",
                      "door_0=Door(wall_0, 2.5, 0.0, 0.0, -1.0, 2.0)"]
      = .ok ⟨[⟨"wall_0", 0, 0, 0, 5, 0, 0, -(5 / 2)⟩],
             [⟨"door_0", "wall_0", 5 / 2, 0, 0, -1, 2⟩], [], []⟩
    ∧ (-(5 / 2) : ℚ) ≤ 0 ∧ (-1 : ℚ) ≤ 0 := by
  refine ⟨?_, by norm_num, by norm_num⟩
  have h0 : Pre.convertScene ["wall_0=Wall(0.0, 0.0, 0.0, 5.0, 0.0, 0.0, -2.5)",
                              "door_0=Door(wall_0, 2.5, 0.0, 0.0, -1.0, 2.0)"]
      = .ok ⟨[⟨"wall_0", Pre.pyFloatVal ['0', '.', '0'], Pre.pyFloatVal ['0', '.', '0'],
              Pre.pyFloatVal ['0', '.', '0'], Pre.pyFloatVal ['5', '.', '0'],
              Pre.pyFloatVal ['0', '.', '0'], Pre.pyFloatVal ['0', '.', '0'],
              Pre.pyFloatVal ['-', '2', '.', '5']⟩],
             [⟨"door_0", "wall_0", Pre.pyFloatVal ['2', '.', '5'], Pre.pyFloatVal ['0', '.', '0'],
               Pre.pyFloatVal ['0', '.', '0'], Pre.pyFloatVal ['-', '1', '.', '0'],
               Pre.pyFloatVal ['2', '.', '0']⟩], [], []⟩ := rfl
  rw [h0]
  simp only [Pre.val_00, Pre.val_50, Pre.val_25, Pre.val_m25, Pre.val_m10, Pre.val_20]

/-! ## Claim C3 -/

/-- C3 (amended): a wall or bbox line of the recognized notation shape
whose numeric argument slots avoid the structural characters but contain a
token rejected by float() always fails — it never returns a record, partial
or otherwise — but the failure is one of the code's two generic ValueErrors
(the regex could-not-parse error, or the uncaught float() conversion
error), never a structured InvalidNumber carrying the field and token (the
original claim is refuted by C3_counterexample). -/
theorem C3_invalid_number :
    (∀ (preL t1 t2 t3 t4 t5 t6 t7 : List Char) (wid : String),
      '(' ∉ preL →
      (∀ t ∈ [t1, t2, t3, t4, t5, t6, t7], ∀ c ∈ t,
        c ≠ ',' ∧ c ≠ '(' ∧ c ≠ ')' ∧ pyWs c = false) →
      (∃ t ∈ [t1, t2, t3, t4, t5, t6, t7], Pre.pyFloatValid t = false) →
      Pre.errWithin (fun e => e.fromCode && !e.isInvalidNumber)
        (Pre.parse_wall_line
          ⟨preL ++ Pre.wallPat ++ (Pre.joinT [t1, t2, t3, t4, t5, t6, t7] ++ ')' :: [])⟩ wid)
        = true) ∧
    (∀ (preL label t1 t2 t3 t4 t5 t6 t7 : List Char) (bid : String),
      '(' ∉ preL →
      label ≠ [] →
      (∀ c ∈ label, c ≠ ',' ∧ c ≠ '(') →
      (∀ t ∈ [t1, t2, t3, t4, t5, t6, t7], ∀ c ∈ t,
        c ≠ ',' ∧ c ≠ '(' ∧ c ≠ ')' ∧ pyWs c = false) →
      (∃ t ∈ [t1, t2, t3, t4, t5, t6, t7], Pre.pyFloatValid t = false) →
      Pre.errWithin (fun e => e.fromCode && !e.isInvalidNumber)
        (Pre.parse_bbox_line
          ⟨preL ++ Pre.bboxPat
            ++ (label ++ ',' :: ' ' :: (Pre.joinT [t1, t2, t3, t4, t5, t6, t7] ++ ')' :: []))⟩
          bid)
        = true) := by
  constructor
  · intro preL t1 t2 t3 t4 t5 t6 t7 wid hpre hsafe hbad
    by_cases hall : ∀ t ∈ [t1, t2, t3, t4, t5, t6, t7], t ≠ [] ∧ ∀ c ∈ t, classChar c = true
    · obtain ⟨tok, htok⟩ :=
        Pre.parse_wall_line_float_err preL t1 t2 t3 t4 t5 t6 t7 wid hpre hall hbad
      rw [htok]
      rfl
    · have hex : ∃ t ∈ [t1, t2, t3, t4, t5, t6, t7],
          ¬ (t ≠ [] ∧ ∀ c ∈ t, classChar c = true) := by
        by_contra hno
        push_neg at hno
        exact hall (fun t ht => ⟨(hno t ht).1, (hno t ht).2⟩)
      rw [Pre.parse_wall_line_err preL t1 t2 t3 t4 t5 t6 t7 wid hpre hsafe hex]
      rfl
  · intro preL label t1 t2 t3 t4 t5 t6 t7 bid hpre hlne hlab hsafe hbad
    by_cases hall : ∀ t ∈ [t1, t2, t3, t4, t5, t6, t7], t ≠ [] ∧ ∀ c ∈ t, classChar c = true
    · obtain ⟨tok, htok⟩ :=
        Pre.parse_bbox_line_float_err preL label t1 t2 t3 t4 t5 t6 t7 bid hpre hlne hlab hall hbad
      rw [htok]
      rfl
    · have hex : ∃ t ∈ [t1, t2, t3, t4, t5, t6, t7],
          ¬ (t ≠ [] ∧ ∀ c ∈ t, classChar c = true) := by
        by_contra hno
        push_neg at hno
        exact hall (fun t ht => ⟨(hno t ht).1, (hno t ht).2⟩)
      rw [Pre.parse_bbox_line_err preL label t1 t2 t3 t4 t5 t6 t7 bid hpre hlne hlab hsafe hex]
      rfl

/-- Witness for C3: the wall line with the non-numeric token abc fails with
one of the code's two ValueErrors and not with InvalidNumber. -/
theorem C3_witness :
    Pre.errWithin (fun e => e.fromCode && !e.isInvalidNumber)
      (Pre.parse_wall_line "wall_0=Wall(abc, 0.0, 0.0, 0.0, 0.0, 0.0, 0.0)" "wall_0") = true :=
  C3_invalid_number.1 "wall_0=".toList ['a', 'b', 'c'] ['0', '.', '0'] ['0', '.', '0']
    ['0', '.', '0'] ['0', '.', '0'] ['0', '.', '0'] ['0', '.', '0'] "wall_0"
    (by decide) (by decide) ⟨['a', 'b', 'c'], by decide, by decide⟩

/-- Counterexample for C3: the error is never the InvalidNumber variant,
and it is not even a single error shape — a token failing the regex class
raises the generic could-not-parse ValueError carrying the whole raw line
(no field, no token), while a class-conformant token rejected by float()
raises the float-conversion ValueError. -/
theorem C3_counterexample :
    Pre.parse_wall_line "wall_0=Wall(abc, 0.0, 0.0, 0.0, 0.0, 0.0, 0.0)" "wall_0"
      = .error (.couldNotParse "wall" "wall_0=Wall(abc, 0.0, 0.0, 0.0, 0.0, 0.0, 0.0)")
    ∧ Pre.ConvErr.isInvalidNumber
        (.couldNotParse "wall" "wall_0=Wall(abc, 0.0, 0.0, 0.0, 0.0, 0.0, 0.0)") = false
    ∧ Pre.parse_wall_line "wall_0=Wall(1.2.3, 0.0, 0.0, 0.0, 0.0, 0.0, 0.0)" "wall_0"
      = .error (.floatConvError "1.2.3")
    ∧ Pre.ConvErr.isInvalidNumber (.floatConvError "1.2.3") = false :=
  ⟨rfl, rfl, rfl, rfl⟩

/-! ## Claim C2 -/

/-- C2 (amended): the conversion silently drops lines rather than failing
on them — a line whose stripped form contains no '=', or whose identifier
prefix is none of bbox_/wall_/door_/window_, is skipped and the conversion
equals the conversion of the remaining lines; no MalformedLine or
UnknownRecordKind error exists in the code's behavior, every conversion
failure being one of the two parser ValueErrors (the original claim is
refuted by C2_counterexample). -/
theorem C2_silent_skip :
    (∀ (l : String) (rest : List String),
      ((pstripL l.toList).contains '=' = false ∨
        (Pre.bboxPre.isPrefixOf (Pre.varOf (pstripL l.toList)) = false ∧
         Pre.wallPre.isPrefixOf (Pre.varOf (pstripL l.toList)) = false ∧
         Pre.doorPre.isPrefixOf (Pre.varOf (pstripL l.toList)) = false ∧
         Pre.windowPre.isPrefixOf (Pre.varOf (pstripL l.toList)) = false)) →
      Pre.convertScene (l :: rest) = Pre.convertScene rest) ∧
    (∀ (lines : List String) (e : Pre.ConvErr),
      Pre.convertScene lines = .error e → e.fromCode = true) := by
  constructor
  · intro l rest hcond
    have hskip : Pre.lineStep l.toList = .skip := by
      rcases hcond with h | ⟨hb, hw, hd, hn⟩
      · exact Pre.lineStep_skip_noeq l.toList h
      · exact Pre.lineStep_skip_unknown l.toList hb hw hd hn
    simp only [Pre.convertScene, List.map_cons]
    exact Pre.go_cons_skip l.toList (rest.map String.toList) ⟨[], [], [], []⟩ hskip
  · intro lines e h
    exact Pre.go_error_fromCode (lines.map String.toList) ⟨[], [], [], []⟩ e h

/-- Witness for C2: a line without '=' and a line with the unrecognized
prefix foo_ are both skipped. -/
theorem C2_witness :
    Pre.convertScene ["garbage"] = Pre.convertScene []
    ∧ Pre.convertScene ["foo_0=Wall(0.0, 0.0, 0.0, 5.0, 0.0, 0.0, 2.5)"]
        = Pre.convertScene [] :=
  ⟨C2_silent_skip.1 "garbage" [] (Or.inl (by decide)),
   C2_silent_skip.1 "foo_0=Wall(0.0, 0.0, 0.0, 5.0, 0.0, 0.0, 2.5)" []
    (Or.inr ⟨by decide, by decide, by decide, by decide⟩)⟩

/-- Counterexample for C2: conversion succeeds although the input contains
a non-blank line with no '=' separator (resp. with an unrecognized
identifier prefix); the offending lines are silently dropped instead of
producing MalformedLine or UnknownRecordKind. -/
theorem C2_counterexample :
    Pre.convertScene ["garbage", "wall_0=Wall(0.0, 0.0, 0.0, 5.0, 0.0, 0.0, 2.5)"]
      = .ok ⟨[⟨"wall_0", 0, 0, 0, 5, 0, 0, 5 / 2⟩], [], [], []⟩
    ∧ Pre.convertScene ["foo_0=Wall(0.0, 0.0, 0.0, 5.0, 0.0, 0.0, 2.5)"]
        = .ok ⟨[], [], [], []⟩ := by
  constructor
  · have h0 : Pre.convertScene ["garbage", "wall_0=Wall(0.0, 0.0, 0.0, 5.0, 0.0, 0.0, 2.5)"]
        = .ok ⟨[⟨"wall_0", Pre.pyFloatVal ['0', '.', '0'], Pre.pyFloatVal ['0', '.', '0'],
                Pre.pyFloatVal ['0', '.', '0'], Pre.pyFloatVal ['5', '.', '0'],
                Pre.pyFloatVal ['0', '.', '0'], Pre.pyFloatVal ['0', '.', '0'],
                Pre.pyFloatVal ['2', '.', '5']⟩], [], [], []⟩ := rfl
    rw [h0]
    simp only [Pre.val_00, Pre.val_50, Pre.val_25]
  · rfl

/-! ## Claim C7 -/

/-- C7: every successful conversion lists the records of each kind in
first-seen source order — the assembled lists are exactly the in-order
extraction of the records each line contributes, one filterMap over the
source lines per kind. -/
theorem C7_encounter_order (lines : List String) (d : Pre.SceneData)
    (h : Pre.convertScene lines = .ok d) :
    d.walls = Pre.wallsOfLines (lines.map String.toList) ∧
    d.doors = Pre.doorsOfLines (lines.map String.toList) ∧
    d.windows = Pre.windowsOfLines (lines.map String.toList) ∧
    d.objects = Pre.objectsOfLines (lines.map String.toList) := by
  have h0 := Pre.go_characterization (lines.map String.toList) ⟨[], [], [], []⟩ d h
  simpa using h0

/-- Witness for C7: with wall_1 appearing before wall_0 in the source, the
assembled walls sequence lists wall_1 before wall_0. -/
theorem C7_witness :
    (Pre.wallsOfLines
        (["wall_1=Wall(0.0, 0.0, 0.0, 5.0, 0.0, 0.0, 2.5)",
          "wall_0=Wall(5.0, 0.0, 0.0, 5.0, 4.0, 0.0, 2.5)"].map String.toList)).map
        (fun w => w.id)
      = ["wall_1", "wall_0"] := by
  have hconv : Pre.convertScene
      ["wall_1=Wall(0.0, 0.0, 0.0, 5.0, 0.0, 0.0, 2.5)",
       "wall_0=Wall(5.0, 0.0, 0.0, 5.0, 4.0, 0.0, 2.5)"]
      = .ok ⟨[⟨"wall_1", Pre.pyFloatVal ['0', '.', '0'], Pre.pyFloatVal ['0', '.', '0'],
              Pre.pyFloatVal ['0', '.', '0'], Pre.pyFloatVal ['5', '.', '0'],
              Pre.pyFloatVal ['0', '.', '0'], Pre.pyFloatVal ['0', '.', '0'],
              Pre.pyFloatVal ['2', '.', '5']⟩,
             ⟨"wall_0", Pre.pyFloatVal ['5', '.', '0'], Pre.pyFloatVal ['0', '.', '0'],
              Pre.pyFloatVal ['0', '.', '0'], Pre.pyFloatVal ['5', '.', '0'],
              Pre.pyFloatVal ['4', '.', '0'], Pre.pyFloatVal ['0', '.', '0'],
              Pre.pyFloatVal ['2', '.', '5']⟩], [], [], []⟩ := rfl
  have h2 := (C7_encounter_order _ _ hconv).1
  rw [← h2]
  rfl

/-! ## Claim C4 -/

/-- Concatenation splits the per-kind extraction. -/
theorem wallsOfLines_append (a b : List (List Char)) :
    Pre.wallsOfLines (a ++ b) = Pre.wallsOfLines a ++ Pre.wallsOfLines b := by
  simp [Pre.wallsOfLines, List.filterMap_append]

/-- A wall line contributes its record at the head of the extraction. -/
theorem wallsOfLines_cons_wall (l : List Char) (rest : List (List Char)) (w : Pre.Wall)
    (h : Pre.lineStep l = .wallR w) :
    Pre.wallsOfLines (l :: rest) = w :: Pre.wallsOfLines rest := by
  simp [Pre.wallsOfLines, List.filterMap_cons, h]

/-- C4 (amended): the conversion performs no duplicate-id detection — two
wall lines carrying the same id both survive, at their respective encounter
positions, and conversion succeeds; there is no DuplicateId failure (the
original claim is refuted by C4_counterexample). -/
theorem C4_duplicate_ids (pre mid post : List String) (l1 l2 : String) (w1 w2 : Pre.Wall)
    (h1 : Pre.lineStep l1.toList = .wallR w1)
    (h2 : Pre.lineStep l2.toList = .wallR w2)
    (_hid : w1.id = w2.id)
    (d : Pre.SceneData)
    (h : Pre.convertScene (pre ++ l1 :: mid ++ l2 :: post) = .ok d) :
    d.walls = Pre.wallsOfLines (pre.map String.toList)
      ++ w1 :: (Pre.wallsOfLines (mid.map String.toList)
        ++ w2 :: Pre.wallsOfLines (post.map String.toList)) := by
  have h0 := (Pre.go_characterization _ ⟨[], [], [], []⟩ d h).1
  rw [h0]
  simp only [List.map_append, List.map_cons, List.nil_append]
  rw [wallsOfLines_append, wallsOfLines_append, wallsOfLines_cons_wall _ _ _ h1,
    wallsOfLines_cons_wall _ _ _ h2]
  simp

/-- Witness for C4: two wall lines with the same id wall_0 are both kept in
encounter order. -/
theorem C4_witness :
    (⟨[⟨"wall_0", 0, 0, 0, 5, 0, 0, 5 / 2⟩, ⟨"wall_0", 0, 0, 0, 5, 0, 0, 7 / 2⟩], [], [], []⟩
        : Pre.SceneData).walls
      = Pre.wallsOfLines (([] : List String).map String.toList)
        ++ ⟨"wall_0", 0, 0, 0, 5, 0, 0, 5 / 2⟩ ::
          (Pre.wallsOfLines (([] : List String).map String.toList)
            ++ ⟨"wall_0", 0, 0, 0, 5, 0, 0, 7 / 2⟩ ::
              Pre.wallsOfLines (([] : List String).map String.toList)) := by
  have h1 : Pre.lineStep "wall_0=Wall(0.0, 0.0, 0.0, 5.0, 0.0, 0.0, 2.5)".toList
      = .wallR ⟨"wall_0", 0, 0, 0, 5, 0, 0, 5 / 2⟩ := by
    have h0 : Pre.lineStep "wall_0=Wall(0.0, 0.0, 0.0, 5.0, 0.0, 0.0, 2.5)".toList
        = .wallR ⟨"wall_0", Pre.pyFloatVal ['0', '.', '0'], Pre.pyFloatVal ['0', '.', '0'],
            Pre.pyFloatVal ['0', '.', '0'], Pre.pyFloatVal ['5', '.', '0'],
            Pre.pyFloatVal ['0', '.', '0'], Pre.pyFloatVal ['0', '.', '0'],
            Pre.pyFloatVal ['2', '.', '5']⟩ := rfl
    rw [h0]
    simp only [Pre.val_00, Pre.val_50, Pre.val_25]
  have h2 : Pre.lineStep "wall_0=Wall(0.0, 0.0, 0.0, 5.0, 0.0, 0.0, 3.5)".toList
      = .wallR ⟨"wall_0", 0, 0, 0, 5, 0, 0, 7 / 2⟩ := by
    have h0 : Pre.lineStep "wall_0=Wall(0.0, 0.0, 0.0, 5.0, 0.0, 0.0, 3.5)".toList
        = .wallR ⟨"wall_0", Pre.pyFloatVal ['0', '.', '0'], Pre.pyFloatVal ['0', '.', '0'],
            Pre.pyFloatVal ['0', '.', '0'], Pre.pyFloatVal ['5', '.', '0'],
            Pre.pyFloatVal ['0', '.', '0'], Pre.pyFloatVal ['0', '.', '0'],
            Pre.pyFloatVal ['3', '.', '5']⟩ := rfl
    rw [h0]
    simp only [Pre.val_00, Pre.val_50, Pre.val_35]
  have hconv : Pre.convertScene
      ("wall_0=Wall(0.0, 0.0, 0.0, 5.0, 0.0, 0.0, 2.5)"
        :: "wall_0=Wall(0.0, 0.0, 0.0, 5.0, 0.0, 0.0, 3.5)" :: [])
      = .ok ⟨[⟨"wall_0", 0, 0, 0, 5, 0, 0, 5 / 2⟩, ⟨"wall_0", 0, 0, 0, 5, 0, 0, 7 / 2⟩],
             [], [], []⟩ := by
    have h0 : Pre.convertScene
        ("wall_0=Wall(0.0, 0.0, 0.0, 5.0, 0.0, 0.0, 2.5)"
          :: "wall_0=Wall(0.0, 0.0, 0.0, 5.0, 0.0, 0.0, 3.5)" :: [])
        = .ok ⟨[⟨"wall_0", Pre.pyFloatVal ['0', '.', '0'], Pre.pyFloatVal ['0', '.', '0'],
                Pre.pyFloatVal ['0', '.', '0'], Pre.pyFloatVal ['5', '.', '0'],
                Pre.pyFloatVal ['0', '.', '0'], Pre.pyFloatVal ['0', '.', '0'],
                Pre.pyFloatVal ['2', '.', '5']⟩,
               ⟨"wall_0", Pre.pyFloatVal ['0', '.', '0'], Pre.pyFloatVal ['0', '.', '0'],
                Pre.pyFloatVal ['0', '.', '0'], Pre.pyFloatVal ['5', '.', '0'],
                Pre.pyFloatVal ['0', '.', '0'], Pre.pyFloatVal ['0', '.', '0'],
                Pre.pyFloatVal ['3', '.', '5']⟩], [], [], []⟩ := rfl
    rw [h0]
    simp only [Pre.val_00, Pre.val_50, Pre.val_25, Pre.val_35]
  exact C4_duplicate_ids [] [] [] _ _ _ _ h1 h2 rfl _ hconv

/-- Counterexample for C4: an input with two wall records of the same id
converts successfully, keeping both records — it neither fails with
DuplicateId nor overwrites one with the other. -/
theorem C4_counterexample :
    Pre.convertScene ["wall_0=Wall(0.0, 0.0, 0.0, 5.0, 0.0, 0.0, 2.5)",
                      "wall_0=Wall(0.0, 0.0, 0.0, 5.0, 0.0, 0.0, 3.5)"]
      = .ok ⟨[⟨"wall_0", 0, 0, 0, 5, 0, 0, 5 / 2⟩, ⟨"wall_0", 0, 0, 0, 5, 0, 0, 7 / 2⟩],
             [], [], []⟩ := by
  have h0 : Pre.convertScene ["wall_0=Wall(0.0, 0.0, 0.0, 5.0, 0.0, 0.0, 2.5)",
                              "wall_0=Wall(0.0, 0.0, 0.0, 5.0, 0.0, 0.0, 3.5)"]
      = .ok ⟨[⟨"wall_0", Pre.pyFloatVal ['0', '.', '0'], Pre.pyFloatVal ['0', '.', '0'],
              Pre.pyFloatVal ['0', '.', '0'], Pre.pyFloatVal ['5', '.', '0'],
              Pre.pyFloatVal ['0', '.', '0'], Pre.pyFloatVal ['0', '.', '0'],
              Pre.pyFloatVal ['2', '.', '5']⟩,
             ⟨"wall_0", Pre.pyFloatVal ['0', '.', '0'], Pre.pyFloatVal ['0', '.', '0'],
              Pre.pyFloatVal ['0', '.', '0'], Pre.pyFloatVal ['5', '.', '0'],
              Pre.pyFloatVal ['0', '.', '0'], Pre.pyFloatVal ['0', '.', '0'],
              Pre.pyFloatVal ['3', '.', '5']⟩], [], [], []⟩ := rfl
  rw [h0]
  simp only [Pre.val_00, Pre.val_50, Pre.val_25, Pre.val_35]

/-! ## Claim C1 -/

/-- C1 (amended): the persisted serialized form of a converted scene is a
JSON object with exactly the four array-valued fields walls, doors,
windows, objects — but the array elements use the flattened dataclass
field names of precompute_results.py (start_x, start_y, ..., position_x,
scale_x, ...), not nested Point3D-shaped objects: a serialized Wall has no
start or end field at all (the original claim is refuted by
C1_counterexample). -/
theorem C1_persisted_shape (lines : List String) (d : Pre.SceneData)
    (h : Pre.convertScene lines = .ok d) :
    Pre.convert_to_json lines = .ok (Pre.sceneDict d) ∧
    (Pre.sceneDict d).objKeys = ["walls", "doors", "windows", "objects"] ∧
    ((Pre.sceneDict d).getField "walls").map Json.isArr = some true ∧
    ((Pre.sceneDict d).getField "doors").map Json.isArr = some true ∧
    ((Pre.sceneDict d).getField "windows").map Json.isArr = some true ∧
    ((Pre.sceneDict d).getField "objects").map Json.isArr = some true ∧
    (∀ w ∈ d.walls, (Pre.wallJson w).objKeys
        = ["id", "start_x", "start_y", "start_z", "end_x", "end_y", "end_z", "height"]
      ∧ (Pre.wallJson w).getField "start" = none
      ∧ (Pre.wallJson w).getField "end" = none) ∧
    (∀ dd ∈ d.doors, (Pre.doorJson dd).objKeys
        = ["id", "wall_id", "position_x", "position_y", "position_z", "width", "height"]
      ∧ (Pre.doorJson dd).getField "position" = none) ∧
    (∀ w ∈ d.windows, (Pre.windowJson w).objKeys
        = ["id", "wall_id", "position_x", "position_y", "position_z", "width", "height"]
      ∧ (Pre.windowJson w).getField "position" = none) ∧
    (∀ b ∈ d.objects, (Pre.bboxJson b).objKeys
        = ["id", "object_class", "position_x", "position_y", "position_z", "rotation_z",
           "scale_x", "scale_y", "scale_z", "confidence"]
      ∧ (Pre.bboxJson b).getField "position" = none
      ∧ (Pre.bboxJson b).getField "scale" = none) := by
  refine ⟨?_, rfl, rfl, rfl, rfl, rfl, ?_, ?_, ?_, ?_⟩
  · simp [Pre.convert_to_json, h, Except.map]
  · exact fun w _ => ⟨rfl, rfl, rfl⟩
  · exact fun dd _ => ⟨rfl, rfl⟩
  · exact fun w _ => ⟨rfl, rfl⟩
  · exact fun b _ => ⟨rfl, rfl, rfl⟩

/-- Witness for C1: on a one-wall scene, the serialized top level carries
exactly the four array fields. -/
theorem C1_witness :
    (Pre.sceneDict ⟨[⟨"wall_0", 0, 0, 0, 5, 0, 0, 5 / 2⟩], [], [], []⟩).objKeys
      = ["walls", "doors", "windows", "objects"] := by
  have hconv : Pre.convertScene ["wall_0=Wall(0.0, 0.0, 0.0, 5.0, 0.0, 0.0, 2.5)"]
      = .ok ⟨[⟨"wall_0", Pre.pyFloatVal ['0', '.', '0'], Pre.pyFloatVal ['0', '.', '0'],
              Pre.pyFloatVal ['0', '.', '0'], Pre.pyFloatVal ['5', '.', '0'],
              Pre.pyFloatVal ['0', '.', '0'], Pre.pyFloatVal ['0', '.', '0'],
              Pre.pyFloatVal ['2', '.', '5']⟩], [], [], []⟩ := rfl
  have h := (C1_persisted_shape _ _ hconv).2.1
  simpa only [Pre.val_00, Pre.val_50, Pre.val_25] using h

/-- Counterexample for C1: the serialized wall element of a converted scene
uses the flattened coordinate field names and has no nested start or end
field, contradicting the claimed nested Point3D shape. -/
theorem C1_counterexample :
    (Pre.convert_to_json ["wall_0=Wall(0.0, 0.0, 0.0, 5.0, 0.0, 0.0, 2.5)"]).map
        (fun j => (firstElem j "walls").map Json.objKeys)
      = .ok (some ["id", "start_x", "start_y", "start_z", "end_x", "end_y", "end_z", "height"])
    ∧ (Pre.convert_to_json ["wall_0=Wall(0.0, 0.0, 0.0, 5.0, 0.0, 0.0, 2.5)"]).map
        (fun j => (firstElem j "walls").bind (fun e => e.getField "start"))
      = .ok none
    ∧ (Pre.convert_to_json ["wall_0=Wall(0.0, 0.0, 0.0, 5.0, 0.0, 0.0, 2.5)"]).map
        (fun j => (firstElem j "walls").bind (fun e => e.getField "end"))
      = .ok none := ⟨rfl, rfl, rfl⟩

/-! ## Claim C6 -/

/-- C6 (amended): a parsed Bbox always carries the converter's fixed
confidence constant 0.95 (= 19/20); but a stored bbox object lacking a
confidence field is served with the pydantic default of main.py, which is
1.0, not 0.95 (the original claim is refuted by C6_counterexample). -/
theorem C6_confidence_default :
    (∀ (line bid : String) (b : Pre.BoundingBox),
      Pre.parse_bbox_line line bid = .ok b → b.confidence = 19 / 20) ∧
    (∀ (fs : List (String × Json)) (b : Api.BoundingBox),
      jGet fs "confidence" = none → Api.bboxOfJson (.obj fs) = some b → b.confidence = 1) := by
  constructor
  · intro line bid b h
    unfold Pre.parse_bbox_line at h
    split at h
    · exact Except.noConfusion h
    · split at h
      · exact Except.noConfusion h
      · injection h with h2
        rw [← h2]
      · exact Except.noConfusion h
  · intro fs b hnone h
    simp only [Api.bboxOfJson] at h
    split at h
    · rw [hnone] at h
      injection h with h2
      rw [← h2]
    · exact Option.noConfusion h

/-- Witness for C6: the Example-2 bbox line parses with confidence 0.95,
while a stored bbox object without a confidence field loads with
confidence 1. -/
theorem C6_witness :
    (Pre.parse_bbox_line "bbox_0=Bbox(sofa, 1.5, 2.0, 0.5, 0.0, 2.0, 0.9, 0.8)" "bbox_0").map
        (fun b => b.confidence) = .ok (19 / 20)
    ∧ (Api.bboxOfJson (Json.obj [("id", .str "bbox_0"), ("objectClass", .str "sofa"),
        ("position", .obj [("x", .num 0), ("y", .num 0), ("z", .num 0)]),
        ("rotation", .num 0),
        ("scale", .obj [("x", .num 1), ("y", .num 1), ("z", .num 1)])])).map
        (fun b => b.confidence) = some 1 := by
  constructor
  · have hp : Pre.parse_bbox_line "bbox_0=Bbox(sofa, 1.5, 2.0, 0.5, 0.0, 2.0, 0.9, 0.8)" "bbox_0"
        = .ok ⟨"bbox_0", "sofa", Pre.pyFloatVal ['1', '.', '5'], Pre.pyFloatVal ['2', '.', '0'],
            Pre.pyFloatVal ['0', '.', '5'], Pre.pyFloatVal ['0', '.', '0'],
            Pre.pyFloatVal ['2', '.', '0'], Pre.pyFloatVal ['0', '.', '9'],
            Pre.pyFloatVal ['0', '.', '8'], 19 / 20⟩ := rfl
    have hc := C6_confidence_default.1 _ _ _ hp
    rw [hp]
    exact congrArg Except.ok hc
  · have hb : Api.bboxOfJson (Json.obj [("id", .str "bbox_0"), ("objectClass", .str "sofa"),
        ("position", .obj [("x", .num 0), ("y", .num 0), ("z", .num 0)]),
        ("rotation", .num 0),
        ("scale", .obj [("x", .num 1), ("y", .num 1), ("z", .num 1)])])
        = some ⟨"bbox_0", "sofa", ⟨0, 0, 0⟩, 0, ⟨1, 1, 1⟩, 1⟩ := rfl
    have hc2 := C6_confidence_default.2
      [("id", .str "bbox_0"), ("objectClass", .str "sofa"),
       ("position", .obj [("x", .num 0), ("y", .num 0), ("z", .num 0)]),
       ("rotation", .num 0),
       ("scale", .obj [("x", .num 1), ("y", .num 1), ("z", .num 1)])]
      ⟨"bbox_0", "sofa", ⟨0, 0, 0⟩, 0, ⟨1, 1, 1⟩, 1⟩ rfl hb
    rw [hb]
    exact congrArg Option.some hc2

/-- Counterexample for C6: a stored bbox object lacking a confidence field
is served with confidence 1, and 1 is not 0.95. -/
theorem C6_counterexample :
    Api.bboxOfJson (Json.obj [("id", .str "bbox_0"), ("objectClass", .str "sofa"),
        ("position", .obj [("x", .num 0), ("y", .num 0), ("z", .num 0)]),
        ("rotation", .num 0),
        ("scale", .obj [("x", .num 1), ("y", .num 1), ("z", .num 1)])])
      = some ⟨"bbox_0", "sofa", ⟨0, 0, 0⟩, 0, ⟨1, 1, 1⟩, 1⟩
    ∧ (1 : ℚ) ≠ 19 / 20 := ⟨rfl, by norm_num⟩

/-! ## Claim C5 -/

/-- C5 (amended): the endpoint raises its 404 NotFound exactly when the
loader returns None — and the loader returns None both when no entry is
stored under the (extension-stripped) identifier and when a stored entry
fails pydantic validation: a malformed stored entry is therefore reported
identically to a missing one (the original claim, that load/parse failures
are kept distinct from NotFound, is refuted by C5_counterexample). -/
theorem C5_notfound_conflation (store : Api.Store) (scene_id : String) :
    ((∃ e, Api.get_precomputed_result store scene_id = .error e) ↔
      Api.load_precomputed_results store (scene_id ++ ".ply") = none) ∧
    (∀ filename : String,
      Api.load_precomputed_results store filename = none ↔
        ((store.find? (fun en =>
            en.1 = (⟨pyReplaceEmpty Api.plyPat filename.data⟩ : String))).map
              (fun en => en.2) = none ∨
         ∃ j, (store.find? (fun en =>
            en.1 = (⟨pyReplaceEmpty Api.plyPat filename.data⟩ : String))).map
              (fun en => en.2) = some j ∧ Api.sceneOfJson j = none)) := by
  constructor
  · unfold Api.get_precomputed_result
    cases hl : Api.load_precomputed_results store (scene_id ++ ".ply") with
    | none => simp
    | some scene => simp
  · intro filename
    unfold Api.load_precomputed_results
    cases hf : (store.find? (fun en =>
        en.1 = (⟨pyReplaceEmpty Api.plyPat filename.data⟩ : String))).map
          (fun en => en.2) with
    | none => simp [hf]
    | some j =>
      cases hs : Api.sceneOfJson j with
      | none => simp [hf, hs]
      | some scene => simp [hf, hs]

/-- Witness for C5: on a store holding one malformed entry, looking the
entry's own id up yields the NotFound error, i.e. the loader returns
None. -/
theorem C5_witness :
    Api.load_precomputed_results [("bad", Json.num 0)] ("bad" ++ ".ply") = none :=
  (C5_notfound_conflation [("bad", Json.num 0)] "bad").1.mp
    ⟨.notFound404 "bad" ["bad"], rfl⟩

/-- Counterexample for C5: a stored entry whose JSON fails validation is
reported with exactly the same NotFound error shape as a genuinely missing
scene id, although the claim requires the two outcomes to stay distinct. -/
theorem C5_counterexample :
    Api.get_precomputed_result [("bad", Json.num 0)] "bad"
      = .error (.notFound404 "bad" ["bad"])
    ∧ Api.get_precomputed_result [("bad", Json.num 0)] "missing"
      = .error (.notFound404 "missing" ["bad"])
    ∧ ("bad", Json.num 0) ∈ ([("bad", Json.num 0)] : Api.Store) := ⟨rfl, rfl, by simp⟩

/-! ## Claim C10 -/

/-- C10 (amended): for every scene identifier that does not contain the
substring ".ply", when no entry is stored under it and no stored id
contains the substring "_results", the lookup fails with the 404 carrying
that identifier together with the full list of stored scene identifiers;
the restrictions are forced by the code's use of str.replace, which deletes
every occurrence of the extension, not just a trailing one (the original
unrestricted claim is refuted by C10_counterexample). -/
theorem C10_notfound_payload (store : Api.Store) (scene_id : String)
    (hid : hasSub Api.plyPat scene_id.toList = false)
    (hstore : ∀ en ∈ store, hasSub Api.resultsPat en.1.toList = false)
    (hmiss : scene_id ∉ store.map (fun en => en.1)) :
    Api.get_precomputed_result store scene_id
      = .error (.notFound404 scene_id (store.map (fun en => en.1))) := by
  have hstrip : (⟨pyReplaceEmpty Api.plyPat (scene_id ++ ".ply").toList⟩ : String)
      = scene_id := by
    have h1 : (scene_id ++ ".ply").toList = scene_id.toList ++ Api.plyPat :=
      String.data_append scene_id ".ply"
    rw [h1, pyReplaceEmpty_append_pat Api.plyPat scene_id.toList (by decide) (by decide) hid]
    rfl
  have hfind : store.find? (fun e => e.1 = scene_id) = none := by
    rw [List.find?_eq_none]
    intro en hen
    simp only [decide_eq_true_eq]
    intro hc
    exact hmiss (by rw [← hc]; exact List.mem_map.mpr ⟨en, hen, rfl⟩)
  have havail : Api.list_available_scenes store = store.map (fun en => en.1) := by
    unfold Api.list_available_scenes
    apply List.map_congr_left
    intro en hen
    rw [pyReplaceEmpty_append_pat Api.resultsPat en.1.toList (by decide) (by decide)
      (hstore en hen)]
    rfl
  have hload : Api.load_precomputed_results store (scene_id ++ ".ply") = none := by
    unfold Api.load_precomputed_results
    simp only [hstrip]
    rw [hfind]
    rfl
  unfold Api.get_precomputed_result
  rw [hload, havail]

/-- Witness for C10: a miss on a one-entry store produces the 404 carrying
the requested id and the stored id. -/
theorem C10_witness :
    Api.get_precomputed_result [("scene0000_00", Json.obj [])] "foo"
      = .error (.notFound404 "foo" ["scene0000_00"]) :=
  C10_notfound_payload [("scene0000_00", Json.obj [])] "foo"
    (by decide) (by decide) (by decide)

/-- Counterexample for C10: the identifier "x.ply" has no stored entry, yet
the lookup does not return NotFound — str.replace deletes both ".ply"
occurrences from "x.ply.ply", so the stored scene "x" is served instead. -/
theorem C10_counterexample :
    Api.get_precomputed_result
        [("x", Json.obj [("walls", .arr []), ("doors", .arr []),
          ("windows", .arr []), ("objects", .arr [])])] "x.ply"
      = .ok ⟨⟨[], [], [], []⟩, 5 / 100, "SpatialLM1.1-Qwen-0.5B (pre-computed)", 50000⟩
    ∧ "x.ply" ∉ ([("x", Json.obj [("walls", .arr []), ("doors", .arr []),
        ("windows", .arr []), ("objects", .arr [])])] : Api.Store).map (fun en => en.1) :=
  ⟨rfl, by decide⟩

end SpatialLM
